import Mathlib

/-!
# Banking engine: accounts, ledger and bank orchestration

A shallow embedding of `src/bank.cpp`.

Modelling conventions.

* Amounts and balances have the C++ type `double`. Every member is written
  once, over a type `R` of amounts that offers the operations the source applies
  to a `double`: `+`, `-`, `*`, `/`, unary minus, `<`, `<=`, its literals, `abs`
  and `pow`. At `R := F64`, the type of IEEE 754 binary64 numbers defined below
  (round to nearest, ties to even, with NaN, the infinities, the signed zeros
  and gradual underflow; every `double` expression evaluated in binary64), the
  definitions are the program. At `R := ℚ` they are the program in exact
  arithmetic: the same statements, every sum, difference, product and quotient
  unrounded, no NaN and no infinity.
* A statement that fixes a balance or a threshold by arithmetic is made in exact
  arithmetic and says so; where the program in `double` departs from it, the
  departure is shown on `F64` at a concrete input. A statement about control
  flow, logs, identifiers or error paths is made on the same definitions at
  `R := ℚ`.
* A C++ exception is an `Except.error`; because a throw does not undo the
  assignments made before it, every operation returns the state it leaves
  behind together with its outcome, `σ × Except BankException α`.
* `shared_ptr` objects live in the bank's account table; a pointer is the key
  of the object, and a method call through a pointer rewrites the entry stored
  under that key.
* The static counter `Transaction::nextTransactionId` is a field of the bank
  state. Counters are unbounded integers (signed overflow is undefined in the
  source).
* Console output, timestamps and creation dates have no counterpart here.
* The private members `interestRate`, `minimumBalance`, `overdraftLimit` and
  `overdraftFee` are set to literals by the only constructor of their class and
  never assigned afterwards; they are class constants here.
-/

namespace Banking

/-! ## Amounts: the type `double`

The value type of the program, its operations and its literals, and the
interface through which the members below use them. -/

/-- The functions of `<cmath>` the source calls on amounts: `abs` and `pow`
with an `int` exponent. -/
class CMath (R : Type) where
  abs : R → R
  pow : R → Int → R

/-- In exact arithmetic `abs` is the absolute value and `pow` the integer
power. -/
instance Rat.instCMath : CMath ℚ := ⟨fun x => |x|, fun x n => x ^ n⟩

/-- A value of the type `double` (IEEE 754 binary64): not-a-number, an infinity,
or the finite number `± m · 2 ^ e`. The operations below produce the normal
form, in which `m < 2 ^ 53`, `-1074 ≤ e ≤ 971`, and `2 ^ 52 ≤ m` unless
`e = -1074`; the zeros are `± 0 · 2 ^ (-1074)`. -/
inductive F64 where
  | nan
  | inf (neg : Bool)
  | fin (neg : Bool) (m : Nat) (e : Int)
  deriving DecidableEq

/-- The zero of the given sign. -/
def F64.zero (neg : Bool) : F64 := .fin neg 0 (-1074)

/-- The number of binary digits of `n`, added to `acc`, counted in at most
`fuel` halvings (`fuel = n` is enough). -/
def F64.bitLength : Nat → Nat → Nat → Nat
  | 0, _, acc => acc
  | fuel + 1, n, acc => if n = 0 then acc else F64.bitLength fuel (n / 2) (acc + 1)

/-- The double nearest to `± n / d`, for `0 < d`, in the default rounding mode
(to nearest, ties to the even significand): the quotient is cut to 53 binary
digits, or to the digits above `2 ^ (-1074)` when it is subnormal; a result
beyond the largest finite double is an infinity. -/
def F64.roundRatio (neg : Bool) (n d : Nat) : F64 :=
  if n = 0 then F64.zero neg
  else
    let k : Int := (F64.bitLength n n 0 : Int) - (F64.bitLength d d 0 : Int) - 52
    let q₀ := if 0 ≤ k then n / (d * 2 ^ k.toNat) else n * 2 ^ (-k).toNat / d
    let k := if q₀ < 2 ^ 52 then k - 1 else k
    let e := max k (-1074)
    let num := if 0 ≤ e then n else n * 2 ^ (-e).toNat
    let den := if 0 ≤ e then d * 2 ^ e.toNat else d
    let q := num / den
    let r := num % den
    let q := if den < 2 * r ∨ (2 * r = den ∧ q % 2 = 1) then q + 1 else q
    let e := if q = 2 ^ 53 then e + 1 else e
    let q := if q = 2 ^ 53 then 2 ^ 52 else q
    if 971 < e then .inf neg else .fin neg q e

/-- The double nearest to `z · 2 ^ e`; an exact zero takes the sign `zneg`. -/
def F64.roundScaled (zneg : Bool) (z : Int) (e : Int) : F64 :=
  if z = 0 then F64.zero zneg
  else if 0 ≤ e then F64.roundRatio (decide (z < 0)) (z.natAbs * 2 ^ e.toNat) 1
  else F64.roundRatio (decide (z < 0)) z.natAbs (2 ^ (-e).toNat)

/-- The integer `± m`. -/
def F64.signed (neg : Bool) (m : Nat) : Int := if neg then -(m : Int) else m

/-- Unary minus: the sign bit is flipped. -/
def F64.neg : F64 → F64
  | .nan => .nan
  | .inf s => .inf (!s)
  | .fin s m e => .fin (!s) m e

/-- The function `abs` on a `double`: the sign bit is cleared. -/
def F64.abs : F64 → F64
  | .nan => .nan
  | .inf _ => .inf false
  | .fin _ m e => .fin false m e

/-- Addition: the exact sum, rounded. A zero sum of two numbers of the same
sign keeps that sign and is `+0` otherwise. -/
def F64.add : F64 → F64 → F64
  | .nan, _ => .nan
  | _, .nan => .nan
  | .inf s, .inf t => if s = t then .inf s else .nan
  | .inf s, .fin _ _ _ => .inf s
  | .fin _ _ _, .inf t => .inf t
  | .fin s m e, .fin t n f =>
    let g := min e f
    F64.roundScaled (s && t)
      (F64.signed s (m * 2 ^ (e - g).toNat) + F64.signed t (n * 2 ^ (f - g).toNat)) g

/-- Subtraction: the sum with the negated operand. -/
def F64.sub (x y : F64) : F64 := F64.add x (F64.neg y)

/-- Multiplication: the exact product, rounded. -/
def F64.mul : F64 → F64 → F64
  | .nan, _ => .nan
  | _, .nan => .nan
  | .inf s, .inf t => .inf (xor s t)
  | .inf s, .fin t n _ => if n = 0 then .nan else .inf (xor s t)
  | .fin s m _, .inf t => if m = 0 then .nan else .inf (xor s t)
  | .fin s m e, .fin t n f =>
    F64.roundScaled (xor s t) (F64.signed (xor s t) (m * n)) (e + f)

/-- Division: the exact quotient, rounded; a nonzero number over a zero is an
infinity, and `0 / 0` and `∞ / ∞` are NaN. -/
def F64.div : F64 → F64 → F64
  | .nan, _ => .nan
  | _, .nan => .nan
  | .inf _, .inf _ => .nan
  | .inf s, .fin t _ _ => .inf (xor s t)
  | .fin s _ _, .inf t => F64.zero (xor s t)
  | .fin s m e, .fin t n f =>
    if n = 0 then (if m = 0 then .nan else .inf (xor s t))
    else F64.roundRatio (xor s t) (m * 2 ^ (e - f).toNat) (n * 2 ^ (f - e).toNat)

/-- The comparison `x < y`: false when an operand is NaN. -/
def F64.lt : F64 → F64 → Bool
  | .nan, _ => false
  | _, .nan => false
  | .inf s, .inf t => s && !t
  | .inf s, .fin _ _ _ => s
  | .fin _ _ _, .inf t => !t
  | .fin s m e, .fin t n f =>
    let g := min e f
    decide (F64.signed s (m * 2 ^ (e - g).toNat) < F64.signed t (n * 2 ^ (f - g).toNat))

/-- The comparison `x <= y`: false when an operand is NaN. -/
def F64.le : F64 → F64 → Bool
  | .nan, _ => false
  | _, .nan => false
  | .inf s, .inf t => s || !t
  | .inf s, .fin _ _ _ => s
  | .fin _ _ _, .inf t => !t
  | .fin s m e, .fin t n f =>
    let g := min e f
    decide (F64.signed s (m * 2 ^ (e - g).toNat) ≤ F64.signed t (n * 2 ^ (f - g).toNat))

/-- The double a decimal literal `m · 10 ^ k` or `m · 10 ^ (-k)` denotes: the
nearest one. -/
def F64.ofScientific (m : Nat) (negExp : Bool) (k : Nat) : F64 :=
  if negExp then F64.roundRatio false m (10 ^ k) else F64.roundRatio false (m * 10 ^ k) 1

/-- The call `pow(x, n)` with an `int` exponent: `1` when `n = 0`, NaN for a
NaN base, the limits at the zeros and the infinities, and otherwise the exact
power, rounded. The C library does not promise the last digit of `pow`; it is
taken to round correctly, and no statement below rests on that digit. -/
def F64.pow (x : F64) (n : Int) : F64 :=
  if n = 0 then F64.roundRatio false 1 1
  else
    match x with
    | .nan => .nan
    | .inf s =>
      if 0 < n then .inf (s && decide (n % 2 = 1)) else F64.zero (s && decide (n % 2 = 1))
    | .fin s m e =>
      let sg := s && decide (n % 2 = 1)
      if m = 0 then (if 0 < n then F64.zero sg else .inf sg)
      else
        let k := n.natAbs
        let num := if 0 ≤ e then m ^ k * 2 ^ (e.toNat * k) else m ^ k
        let den := if 0 ≤ e then 1 else 2 ^ ((-e).toNat * k)
        if 0 < n then F64.roundRatio sg num den else F64.roundRatio sg den num

/-- The real number a finite double stands for. -/
def F64.toRat : F64 → Option ℚ
  | .fin s m e => some ((F64.signed s m : ℚ) * 2 ^ e)
  | _ => none

instance F64.instAdd : Add F64 := ⟨F64.add⟩

instance F64.instSub : Sub F64 := ⟨F64.sub⟩

instance F64.instMul : Mul F64 := ⟨F64.mul⟩

instance F64.instDiv : Div F64 := ⟨F64.div⟩

instance F64.instNeg : Neg F64 := ⟨F64.neg⟩

instance F64.instLT : LT F64 := ⟨fun x y => F64.lt x y = true⟩

instance F64.instLE : LE F64 := ⟨fun x y => F64.le x y = true⟩

instance F64.instDecidableLT (x y : F64) : Decidable (x < y) :=
  inferInstanceAs (Decidable (F64.lt x y = true))

instance F64.instDecidableLE (x y : F64) : Decidable (x ≤ y) :=
  inferInstanceAs (Decidable (F64.le x y = true))

/-- An integer literal denotes the nearest double. -/
instance F64.instOfNat (n : Nat) : OfNat F64 n := ⟨F64.roundRatio false n 1⟩

instance F64.instOfScientific : OfScientific F64 := ⟨F64.ofScientific⟩

instance F64.instCMath : CMath F64 := ⟨F64.abs, F64.pow⟩

/-! ## Data model -/

/-- The kinds of ledger entry (`enum class TransactionType`). -/
inductive TransactionType where
  | DEPOSIT
  | WITHDRAWAL
  | TRANSFER
  | LOAN_PAYMENT
  | INTEREST_CREDIT
  deriving DecidableEq

/-- The account type tags (`enum class AccountType`). -/
inductive AccountType where
  | SAVINGS
  | CHECKING
  | LOAN
  | FIXED_DEPOSIT
  deriving DecidableEq

/-- The exception classes derived from `BankException`. -/
inductive BankException where
  | InsufficientFunds
  | AccountNotFound
  | InvalidAmount
  deriving DecidableEq

/-- One ledger entry (`class Transaction`, without its timestamp). -/
structure Transaction (R : Type) where
  transactionId : Int
  fromAccountId : String
  toAccountId : String
  amount : R
  type : TransactionType
  description : String
  deriving DecidableEq

/-- The dynamic class of an account object with the members that class adds and
that differ from one object to the next. -/
inductive AccountClass (R : Type) where
  | savings
  | checking
  | loan (loanAmount : R) (termMonths : Int) (monthlyPayment : R)
  deriving DecidableEq

/-- An account object: the members of `class Account` and its dynamic class. -/
structure Account (R : Type) where
  accountId : String
  customerId : String
  balance : R
  isActive : Bool
  transactionHistory : List (Transaction R)
  cls : AccountClass R
  deriving DecidableEq

/-! The members below are written over a type `R` of amounts with the operations
the source applies to a `double`. -/

variable {R : Type} [Add R] [Sub R] [Mul R] [Div R] [Neg R] [LT R] [LE R]
  [∀ x y : R, Decidable (x < y)] [∀ x y : R, Decidable (x ≤ y)]
  [OfNat R 0] [OfNat R 1] [OfNat R 12] [OfNat R 35] [OfNat R 100] [OfNat R 500]
  [OfScientific R] [CMath R]

/-- The type tag the subclass constructor passes to `Account::Account`. -/
def Account.getAccountType (self : Account R) : AccountType :=
  match self.cls with
  | .savings => .SAVINGS
  | .checking => .CHECKING
  | .loan _ _ _ => .LOAN

/-- Reads the balance (`Account::getBalance`). -/
def Account.getBalance (self : Account R) : R := self.balance

/-- Appends a record to the account's own log (`Account::addTransaction`). -/
def Account.addTransaction (self : Account R) (transaction : Transaction R) : Account R :=
  { self with transactionHistory := self.transactionHistory ++ [transaction] }

/-- Clears the active flag (`Account::closeAccount`). -/
def Account.closeAccount (self : Account R) : Account R :=
  { self with isActive := false }

/-! ## Savings accounts -/

/-- Annual rate of a savings account, `interestRate(0.035)`. -/
def SavingsAccount.interestRate : R := 0.035

/-- Floor of a savings account, `minimumBalance(100.0)`. -/
def SavingsAccount.minimumBalance : R := 100

/-- Constructor `SavingsAccount::SavingsAccount`. -/
def SavingsAccount.new (accId custId : String) (initialBalance : R) : Account R :=
  { accountId := accId, customerId := custId, balance := initialBalance,
    isActive := true, transactionHistory := [], cls := .savings }

/-- Member `SavingsAccount::deposit`. -/
def SavingsAccount.deposit (self : Account R) (amount : R) :
    Account R × Except BankException Unit :=
  if amount ≤ 0 then (self, .error .InvalidAmount)
  else ({ self with balance := self.balance + amount }, .ok ())

/-- Member `SavingsAccount::withdraw`. -/
def SavingsAccount.withdraw (self : Account R) (amount : R) :
    Account R × Except BankException Bool :=
  if amount ≤ 0 then (self, .error .InvalidAmount)
  else if self.balance - amount < SavingsAccount.minimumBalance then
    (self, .error .InsufficientFunds)
  else ({ self with balance := self.balance - amount }, .ok true)

/-- Member `SavingsAccount::calculateInterest`. -/
def SavingsAccount.calculateInterest (self : Account R) : Account R :=
  let interest := self.balance * SavingsAccount.interestRate / 12
  { self with balance := self.balance + interest }

/-! ## Checking accounts -/

/-- Overdraft limit of a checking account, `overdraftLimit(500.0)`. -/
def CheckingAccount.overdraftLimit : R := 500

/-- Overdraft fee of a checking account, `overdraftFee(35.0)`. -/
def CheckingAccount.overdraftFee : R := 35

/-- Constructor `CheckingAccount::CheckingAccount`. -/
def CheckingAccount.new (accId custId : String) (initialBalance : R) : Account R :=
  { accountId := accId, customerId := custId, balance := initialBalance,
    isActive := true, transactionHistory := [], cls := .checking }

/-- Member `CheckingAccount::deposit`. -/
def CheckingAccount.deposit (self : Account R) (amount : R) :
    Account R × Except BankException Unit :=
  if amount ≤ 0 then (self, .error .InvalidAmount)
  else ({ self with balance := self.balance + amount }, .ok ())

/-- Member `CheckingAccount::withdraw`: the limit is tested on
`balance - amount`, the amount is subtracted, and the fee follows when the
balance has become negative. -/
def CheckingAccount.withdraw (self : Account R) (amount : R) :
    Account R × Except BankException Bool :=
  if amount ≤ 0 then (self, .error .InvalidAmount)
  else if self.balance - amount < -CheckingAccount.overdraftLimit then
    (self, .error .InsufficientFunds)
  else
    let balance := self.balance - amount
    let balance := if balance < 0 then balance - CheckingAccount.overdraftFee else balance
    ({ self with balance := balance }, .ok true)

/-- Member `CheckingAccount::calculateInterest`. -/
def CheckingAccount.calculateInterest (self : Account R) : Account R :=
  if self.balance > 0 then
    let interest := self.balance * 0.001 / 12
    { self with balance := self.balance + interest }
  else self

/-! ## Loan accounts -/

/-- Annual rate of a loan account, `interestRate(0.065)`. -/
def LoanAccount.interestRate : R := 0.065

/-- Constructor `LoanAccount::LoanAccount`: the balance starts at `-loanAmt` and
the installment is computed from the amortisation formula. With `term = 0` the
denominator `pow(1 + monthlyRate, 0) - 1` is zero, and the installment is the
quotient by zero of the amount type: in `double`, an infinity or NaN
(`LoanAccount.new_double_term_zero`); exact arithmetic has no such quotient,
and no statement below is about the installment of a loan of term 0. -/
def LoanAccount.new (accId custId : String) (loanAmt : R) (term : Int) : Account R :=
  let monthlyRate := LoanAccount.interestRate / 12
  let monthlyPayment :=
    (loanAmt * monthlyRate * CMath.pow (1 + monthlyRate) term) /
      (CMath.pow (1 + monthlyRate) term - 1)
  { accountId := accId, customerId := custId, balance := -loanAmt,
    isActive := true, transactionHistory := [],
    cls := .loan loanAmt term monthlyPayment }

/-- Member `LoanAccount::deposit`. -/
def LoanAccount.deposit (self : Account R) (amount : R) :
    Account R × Except BankException Unit :=
  if amount ≤ 0 then (self, .error .InvalidAmount)
  else ({ self with balance := self.balance + amount }, .ok ())

/-- Member `LoanAccount::withdraw`: prints a message and returns `false`. -/
def LoanAccount.withdraw (self : Account R) (_amount : R) :
    Account R × Except BankException Bool :=
  (self, .ok false)

/-- Member `LoanAccount::calculateInterest`. -/
def LoanAccount.calculateInterest (self : Account R) : Account R :=
  let interest := CMath.abs self.balance * LoanAccount.interestRate / 12
  { self with balance := self.balance - interest }

/-! ## Virtual dispatch -/

/-- The virtual call `account->deposit(amount)`. -/
def Account.deposit (self : Account R) (amount : R) : Account R × Except BankException Unit :=
  match self.cls with
  | .savings => SavingsAccount.deposit self amount
  | .checking => CheckingAccount.deposit self amount
  | .loan _ _ _ => LoanAccount.deposit self amount

/-- The virtual call `account->withdraw(amount)`. -/
def Account.withdraw (self : Account R) (amount : R) : Account R × Except BankException Bool :=
  match self.cls with
  | .savings => SavingsAccount.withdraw self amount
  | .checking => CheckingAccount.withdraw self amount
  | .loan _ _ _ => LoanAccount.withdraw self amount

/-- The virtual call `account->calculateInterest()`. -/
def Account.calculateInterest (self : Account R) : Account R :=
  match self.cls with
  | .savings => SavingsAccount.calculateInterest self
  | .checking => CheckingAccount.calculateInterest self
  | .loan _ _ _ => LoanAccount.calculateInterest self

/-! ## Customers -/

/-- A customer record (`class Customer`). -/
structure Customer where
  customerId : String
  firstName : String
  lastName : String
  email : String
  phone : String
  address : String
  accountIds : List String
  deriving DecidableEq

/-- Constructor `Customer::Customer`: the account list starts empty. -/
def Customer.new (id fname lname email phone addr : String) : Customer :=
  { customerId := id, firstName := fname, lastName := lname, email := email,
    phone := phone, address := addr, accountIds := [] }

/-- Member `Customer::addAccount`. -/
def Customer.addAccount (self : Customer) (accountId : String) : Customer :=
  { self with accountIds := self.accountIds ++ [accountId] }

/-! ## Tables (`std::map<string, shared_ptr<T>>`)

A table is the list of its entries in key order. -/

/-- Lookup `m.find(k)`: the object stored under `k`, if any. -/
def mapFind {α : Type} (m : List (String × α)) (k : String) : Option α :=
  match m with
  | [] => none
  | (k', v) :: rest => if k' = k then some v else mapFind rest k

/-- A mutation, through a pointer, of the object stored under `k`. -/
def mapModify {α : Type} (m : List (String × α)) (k : String) (f : α → α) :
    List (String × α) :=
  match m with
  | [] => []
  | (k', v) :: rest => if k' = k then (k', f v) :: rest else (k', v) :: mapModify rest k f

/-- The assignment `m[k] = v`: replaces the entry of `k` or inserts one in key order. -/
def mapInsert {α : Type} (m : List (String × α)) (k : String) (v : α) :
    List (String × α) :=
  match m with
  | [] => [(k, v)]
  | (k', v') :: rest =>
    if k < k' then (k, v) :: (k', v') :: rest
    else if k = k' then (k, v) :: rest
    else (k', v') :: mapInsert rest k v

/-! ## The bank -/

/-- The state of the program: the members of `class Bank` and the static counter
`Transaction::nextTransactionId`. -/
structure Bank (R : Type) where
  bankName : String
  customers : List (String × Customer)
  accounts : List (String × Account R)
  allTransactions : List (Transaction R)
  nextCustomerId : Int
  nextAccountId : Int
  nextTransactionId : Int
  deriving DecidableEq

/-- Constructor `Bank::Bank`, in a process whose transaction counter holds
`nextTransactionId` (`0` at program start). -/
def Bank.new (name : String) (nextTransactionId : Int) : Bank R :=
  { bankName := name, customers := [], accounts := [], allTransactions := [],
    nextCustomerId := 1000, nextAccountId := 10000,
    nextTransactionId := nextTransactionId }

/-- Constructor `Transaction::Transaction`: the record takes the incremented
counter as its identifier. -/
def Bank.makeTransaction (self : Bank R) (src dst : String) (amt : R) (t : TransactionType)
    (desc : String) : Transaction R × Bank R :=
  let nextTransactionId := self.nextTransactionId + 1
  ({ transactionId := nextTransactionId, fromAccountId := src, toAccountId := dst,
     amount := amt, type := t, description := desc },
   { self with nextTransactionId := nextTransactionId })

/-- Member `Bank::findCustomer`. -/
def Bank.findCustomer (self : Bank R) (customerId : String) : Option Customer :=
  mapFind self.customers customerId

/-- Member `Bank::findAccount`. -/
def Bank.findAccount (self : Bank R) (accountId : String) : Option (Account R) :=
  mapFind self.accounts accountId

/-- The effect on the bank of a mutation of the account object stored under
`accountId`. -/
def Bank.modifyAccount (self : Bank R) (accountId : String) (f : Account R → Account R) :
    Bank R :=
  { self with accounts := mapModify self.accounts accountId f }

/-- The push `allTransactions.push_back(transaction)`. -/
def Bank.pushTransaction (self : Bank R) (transaction : Transaction R) : Bank R :=
  { self with allTransactions := self.allTransactions ++ [transaction] }

/-- Member `Bank::createCustomer`. -/
def Bank.createCustomer (self : Bank R) (firstName lastName email phone address : String) :
    Bank R × String :=
  let nextCustomerId := self.nextCustomerId + 1
  let customerId := "CUST" ++ toString nextCustomerId
  let customer := Customer.new customerId firstName lastName email phone address
  ({ self with nextCustomerId := nextCustomerId,
               customers := mapInsert self.customers customerId customer }, customerId)

/-- The common body of the three account-opening members, after the account
object has been constructed: register it, add it to the customer, file the seed
record. -/
def Bank.registerAccount (self : Bank R) (customerId accountId : String) (account : Account R)
    (seedAmount : R) (desc : String) : Bank R :=
  let s1 := { self with accounts := mapInsert self.accounts accountId account }
  let s2 := { s1 with customers := mapModify s1.customers customerId
                                      (fun c => c.addAccount accountId) }
  let (transaction, s3) := s2.makeTransaction "BANK" accountId seedAmount .DEPOSIT desc
  let s4 := s3.modifyAccount accountId (fun a => a.addTransaction transaction)
  s4.pushTransaction transaction

/-- Member `Bank::createSavingsAccount`. -/
def Bank.createSavingsAccount (self : Bank R) (customerId : String) (initialDeposit : R) :
    Bank R × Except BankException String :=
  match self.findCustomer customerId with
  | none => (self, .error .AccountNotFound)
  | some _ =>
    let s0 := { self with nextAccountId := self.nextAccountId + 1 }
    let accountId := "SAV" ++ toString s0.nextAccountId
    let account := SavingsAccount.new accountId customerId initialDeposit
    (s0.registerAccount customerId accountId account initialDeposit "Initial deposit",
     .ok accountId)

/-- Member `Bank::createCheckingAccount`. -/
def Bank.createCheckingAccount (self : Bank R) (customerId : String) (initialDeposit : R) :
    Bank R × Except BankException String :=
  match self.findCustomer customerId with
  | none => (self, .error .AccountNotFound)
  | some _ =>
    let s0 := { self with nextAccountId := self.nextAccountId + 1 }
    let accountId := "CHK" ++ toString s0.nextAccountId
    let account := CheckingAccount.new accountId customerId initialDeposit
    (s0.registerAccount customerId accountId account initialDeposit "Initial deposit",
     .ok accountId)

/-- Member `Bank::createLoanAccount`. -/
def Bank.createLoanAccount (self : Bank R) (customerId : String) (loanAmount : R)
    (termMonths : Int) : Bank R × Except BankException String :=
  match self.findCustomer customerId with
  | none => (self, .error .AccountNotFound)
  | some _ =>
    let s0 := { self with nextAccountId := self.nextAccountId + 1 }
    let accountId := "LOAN" ++ toString s0.nextAccountId
    let account := LoanAccount.new accountId customerId loanAmount termMonths
    (s0.registerAccount customerId accountId account loanAmount "Loan disbursement",
     .ok accountId)

/-- Member `Bank::deposit`. -/
def Bank.deposit (self : Bank R) (accountId : String) (amount : R) :
    Bank R × Except BankException Unit :=
  match self.findAccount accountId with
  | none => (self, .error .AccountNotFound)
  | some account =>
    let (account', r) := account.deposit amount
    let s1 := self.modifyAccount accountId (fun _ => account')
    match r with
    | .error e => (s1, .error e)
    | .ok _ =>
      let (transaction, s2) := s1.makeTransaction "EXTERNAL" accountId amount .DEPOSIT ""
      let s3 := s2.modifyAccount accountId (fun a => a.addTransaction transaction)
      (s3.pushTransaction transaction, .ok ())

/-- Member `Bank::withdraw`. -/
def Bank.withdraw (self : Bank R) (accountId : String) (amount : R) :
    Bank R × Except BankException Unit :=
  match self.findAccount accountId with
  | none => (self, .error .AccountNotFound)
  | some account =>
    let (account', r) := account.withdraw amount
    let s1 := self.modifyAccount accountId (fun _ => account')
    match r with
    | .error e => (s1, .error e)
    | .ok false => (s1, .ok ())
    | .ok true =>
      let (transaction, s2) := s1.makeTransaction accountId "EXTERNAL" amount .WITHDRAWAL ""
      let s3 := s2.modifyAccount accountId (fun a => a.addTransaction transaction)
      (s3.pushTransaction transaction, .ok ())

/-- Member `Bank::transfer`. Both pointers are looked up first; the withdrawal
runs on the source object, then the deposit on the destination object (the same
object, already debited, when the two identifiers coincide), then one record is
built and pushed on the source's log, the destination's log and the global log. -/
def Bank.transfer (self : Bank R) (fromAccountId toAccountId : String) (amount : R) :
    Bank R × Except BankException Unit :=
  match self.findAccount fromAccountId, self.findAccount toAccountId with
  | some fromAccount, some toAccount =>
    let (fromAccount', r) := fromAccount.withdraw amount
    let s1 := self.modifyAccount fromAccountId (fun _ => fromAccount')
    match r with
    | .error e => (s1, .error e)
    | .ok false => (s1, .ok ())
    | .ok true =>
      let toAccount := if toAccountId = fromAccountId then fromAccount' else toAccount
      let (toAccount', r') := toAccount.deposit amount
      let s2 := s1.modifyAccount toAccountId (fun _ => toAccount')
      match r' with
      | .error e => (s2, .error e)
      | .ok _ =>
        let (transaction, s3) :=
          s2.makeTransaction fromAccountId toAccountId amount .TRANSFER ""
        let s4 := s3.modifyAccount fromAccountId (fun a => a.addTransaction transaction)
        let s5 := s4.modifyAccount toAccountId (fun a => a.addTransaction transaction)
        (s5.pushTransaction transaction, .ok ())
  | _, _ => (self, .error .AccountNotFound)

/-- The balance of the account stored under `accountId`, if there is one. -/
def Bank.balanceOf (self : Bank R) (accountId : String) : Option R :=
  (self.findAccount accountId).map Account.getBalance

/-- The log of the account stored under `accountId`, if there is one. -/
def Bank.historyOf (self : Bank R) (accountId : String) : Option (List (Transaction R)) :=
  (self.findAccount accountId).map Account.transactionHistory

/-- The record a successful transfer files in a given bank state. -/
def Bank.transferRecord (self : Bank R) (fromAccountId toAccountId : String) (amount : R) :
    Transaction R :=
  { transactionId := self.nextTransactionId + 1, fromAccountId := fromAccountId,
    toAccountId := toAccountId, amount := amount, type := .TRANSFER, description := "" }

/-- The record `Bank::deposit` files in a given bank state. -/
def Bank.depositRecord (self : Bank R) (accountId : String) (amount : R) : Transaction R :=
  { transactionId := self.nextTransactionId + 1, fromAccountId := "EXTERNAL",
    toAccountId := accountId, amount := amount, type := .DEPOSIT, description := "" }

/-- The record `Bank::withdraw` files in a given bank state. -/
def Bank.withdrawalRecord (self : Bank R) (accountId : String) (amount : R) : Transaction R :=
  { transactionId := self.nextTransactionId + 1, fromAccountId := accountId,
    toAccountId := "EXTERNAL", amount := amount, type := .WITHDRAWAL, description := "" }

/-- The seed record an account-opening member files in a given bank state. -/
def Bank.seedRecord (self : Bank R) (accountId : String) (amount : R) (desc : String) :
    Transaction R :=
  { transactionId := self.nextTransactionId + 1, fromAccountId := "BANK",
    toAccountId := accountId, amount := amount, type := .DEPOSIT, description := desc }

/-- The loop of `Bank::processMonthlyInterest` over the entries of the account
table, in key order, started with the transaction counter at `n`: every active
account accrues its interest and receives one `INTEREST_CREDIT` record of amount
`0`. The result is the entries, the records filed, in order, and the counter. -/
def processInterestEntries :
    List (String × Account R) → Int → List (String × Account R) × List (Transaction R) × Int
  | [], n => ([], [], n)
  | (k, account) :: rest, n =>
    if account.isActive then
      let account1 := account.calculateInterest
      let transaction : Transaction R :=
        { transactionId := n + 1, fromAccountId := "BANK",
          toAccountId := account1.accountId, amount := 0, type := .INTEREST_CREDIT,
          description := "Monthly interest" }
      let (rest', filed, n') := processInterestEntries rest (n + 1)
      ((k, account1.addTransaction transaction) :: rest', transaction :: filed, n')
    else
      let (rest', filed, n') := processInterestEntries rest n
      ((k, account) :: rest', filed, n')

/-- Member `Bank::processMonthlyInterest`. -/
def Bank.processMonthlyInterest (self : Bank R) : Bank R :=
  let (accounts, filed, n) := processInterestEntries self.accounts self.nextTransactionId
  { self with accounts := accounts, allTransactions := self.allTransactions ++ filed,
              nextTransactionId := n }

/-- The call `findAccount(accountId)->closeAccount()`, for an account that
exists; nothing happens here when there is none. -/
def Bank.closeAccount (self : Bank R) (accountId : String) : Bank R :=
  self.modifyAccount accountId Account.closeAccount

/-- The bank states a program reaches from a freshly constructed bank, with the
transaction counter at any value, through the public members of `Bank` that
change its state and through closing an account. A member that throws leaves
the state it had reached. -/
inductive Bank.Reachable : Bank R → Prop where
  | new (name : String) (n : Int) : Bank.Reachable (Bank.new name n)
  | createCustomer {s : Bank R} (firstName lastName email phone address : String) :
      Bank.Reachable s →
      Bank.Reachable (s.createCustomer firstName lastName email phone address).1
  | createSavingsAccount {s : Bank R} (customerId : String) (initialDeposit : R) :
      Bank.Reachable s → Bank.Reachable (s.createSavingsAccount customerId initialDeposit).1
  | createCheckingAccount {s : Bank R} (customerId : String) (initialDeposit : R) :
      Bank.Reachable s → Bank.Reachable (s.createCheckingAccount customerId initialDeposit).1
  | createLoanAccount {s : Bank R} (customerId : String) (loanAmount : R) (termMonths : Int) :
      Bank.Reachable s →
      Bank.Reachable (s.createLoanAccount customerId loanAmount termMonths).1
  | deposit {s : Bank R} (accountId : String) (amount : R) :
      Bank.Reachable s → Bank.Reachable (s.deposit accountId amount).1
  | withdraw {s : Bank R} (accountId : String) (amount : R) :
      Bank.Reachable s → Bank.Reachable (s.withdraw accountId amount).1
  | transfer {s : Bank R} (fromAccountId toAccountId : String) (amount : R) :
      Bank.Reachable s → Bank.Reachable (s.transfer fromAccountId toAccountId amount).1
  | processMonthlyInterest {s : Bank R} :
      Bank.Reachable s → Bank.Reachable s.processMonthlyInterest
  | closeAccount {s : Bank R} (accountId : String) :
      Bank.Reachable s → Bank.Reachable (s.closeAccount accountId)

/-- Modelled from the spec: the four error kinds of the specification's error
handling design. The source declares three exception classes and no class for an
unknown customer. -/
inductive ErrorKind where
  | InvalidAmount
  | InsufficientFunds
  | AccountNotFound
  | CustomerNotFound
  deriving DecidableEq

/-- The error kind an exception class of the source stands for, by its name. -/
def BankException.kind : BankException → ErrorKind
  | .InsufficientFunds => .InsufficientFunds
  | .AccountNotFound => .AccountNotFound
  | .InvalidAmount => .InvalidAmount

/-- The number an identifier ends in: the decimal value of its digits after the
last character that is not a digit. A device of the proofs: the identifiers
`"SAV" + to_string(n)`, `"CHK" + to_string(n)` and `"LOAN" + to_string(n)`
all have the number `n`. -/
def idNumber (id : String) : Nat :=
  id.data.foldl (fun acc c => if c.isDigit then 10 * acc + (c.toNat - 48) else 0) 0

/-- The keys of a table, in order. -/
def mapKeys {α : Type} (m : List (String × α)) : List String := m.map Prod.fst

/-- The well-formedness of an account table whose identifiers were drawn from a
counter now at `n`: the number of every key is at most `n`, no key occurs
twice, and every account object carries the key it is stored under. -/
def TableOK (m : List (String × Account R)) (n : Int) : Prop :=
  (∀ k ∈ mapKeys m, (idNumber k : Int) ≤ n) ∧ (mapKeys m).Nodup ∧
    ∀ p ∈ m, p.2.accountId = p.1

/-- The invariant of the bank on its account identifiers. -/
def Bank.IdsOK (self : Bank R) : Prop :=
  0 ≤ self.nextAccountId ∧ TableOK self.accounts self.nextAccountId

/-- The effect of opening an account for the customer `c`, registered under
`customerId`, that takes the bank from `s` to `s'`: the identifier was free, the
table has one more entry, the new account object has the given type, balance
and owner, is active and has the seed record as its whole log, the customer's
list of accounts has the identifier appended, the seed record is the new last
entry of the global log, and every account that was in the table is still
there, as it was. -/
def Bank.Opened (s s' : Bank R) (customerId : String) (c : Customer) (accountId : String)
    (type : AccountType) (balance : R) (seed : Transaction R) : Prop :=
  s.findAccount accountId = none ∧
  s'.accounts.length = s.accounts.length + 1 ∧
  (∃ A, s'.findAccount accountId = some A ∧ A.getAccountType = type ∧
    A.accountId = accountId ∧ A.customerId = customerId ∧ A.balance = balance ∧
    A.isActive = true ∧ A.transactionHistory = [seed]) ∧
  s'.findCustomer customerId = some { c with accountIds := c.accountIds ++ [accountId] } ∧
  s'.allTransactions = s.allTransactions ++ [seed] ∧
  s'.nextTransactionId = s.nextTransactionId + 1 ∧
  ∀ k A, s.findAccount k = some A → s'.findAccount k = some A

/-- Member `LoanAccount::getMonthlyPayment`. -/
def LoanAccount.getMonthlyPayment (self : Account R) : R :=
  match self.cls with
  | .loan _ _ monthlyPayment => monthlyPayment
  | _ => 0

/-- One month of a loan: `calculateInterest()` followed by a payment of the
installment, `deposit(getMonthlyPayment())`. -/
def LoanAccount.payInstallment (self : Account R) : Account R :=
  (self.calculateInterest.deposit (LoanAccount.getMonthlyPayment self)).1

/-- The record `Bank::processMonthlyInterest` files for an account, with the
transaction counter at `n`. -/
def interestRecord (n : Int) (accountId : String) : Transaction R :=
  { transactionId := n + 1, fromAccountId := "BANK", toAccountId := accountId, amount := 0,
    type := .INTEREST_CREDIT, description := "Monthly interest" }

/-- The order of two successive entries of an account's log: the identifier
grows, or the two entries are one and the same record of a transfer from an
account to itself. -/
def logOrder (t u : Transaction R) : Prop :=
  t.transactionId < u.transactionId ∨
    (t = u ∧ t.type = .TRANSFER ∧ t.fromAccountId = t.toAccountId)

/-- The consistency of the log of the account stored under `k` with the global
log: every entry occurs in the global log and names `k` as its source or its
destination, and the entries are in `logOrder`. -/
def LogOK (k : String) (log globalLog : List (Transaction R)) : Prop :=
  (∀ t ∈ log, t ∈ globalLog ∧ (t.fromAccountId = k ∨ t.toAccountId = k)) ∧
    log.Pairwise logOrder

/-- The consistency of the logs of all the accounts of a table. -/
def LogsOK (m : List (String × Account R)) (globalLog : List (Transaction R)) : Prop :=
  ∀ p ∈ m, LogOK p.1 p.2.transactionHistory globalLog

/-- The ledger invariant on an account table, a global log and a transaction
counter: the identifiers of the global log increase strictly and are at most
the counter, and the account logs are consistent with the global log. -/
def LedgerInv (m : List (String × Account R)) (globalLog : List (Transaction R)) (n : Int) :
    Prop :=
  globalLog.Pairwise (fun t u => t.transactionId < u.transactionId) ∧
    (∀ t ∈ globalLog, t.transactionId ≤ n) ∧ LogsOK m globalLog

/-- The ledger invariant of a bank state. -/
def Bank.LedgerOK (self : Bank R) : Prop :=
  LedgerInv self.accounts self.allTransactions self.nextTransactionId

/-! ## Sample states -/

/-- The savings account of `sampleBank`, at the minimum balance. -/
def sampleSavings : Account ℚ :=
  { accountId := "SAV10001", customerId := "CUST1001", balance := 100,
    isActive := true,
    transactionHistory :=
      [{ transactionId := 1, fromAccountId := "BANK", toAccountId := "SAV10001",
         amount := 100, type := .DEPOSIT, description := "Initial deposit" }],
    cls := .savings }

/-- The checking account of `sampleBank`. -/
def sampleChecking : Account ℚ :=
  { accountId := "CHK10002", customerId := "CUST1001", balance := 100,
    isActive := true,
    transactionHistory :=
      [{ transactionId := 2, fromAccountId := "BANK", toAccountId := "CHK10002",
         amount := 100, type := .DEPOSIT, description := "Initial deposit" }],
    cls := .checking }

/-- A bank with one customer holding a savings account at the minimum balance
and a checking account, as `createCustomer`, `createSavingsAccount` and
`createCheckingAccount` leave it. -/
def sampleBank : Bank ℚ :=
  { bankName := "Sample",
    customers :=
      [("CUST1001",
        { customerId := "CUST1001", firstName := "Ada", lastName := "Byron",
          email := "", phone := "", address := "",
          accountIds := ["SAV10001", "CHK10002"] })],
    accounts :=
      [("CHK10002", sampleChecking), ("SAV10001", sampleSavings)],
    allTransactions :=
      [{ transactionId := 1, fromAccountId := "BANK", toAccountId := "SAV10001",
         amount := 100, type := .DEPOSIT, description := "Initial deposit" },
       { transactionId := 2, fromAccountId := "BANK", toAccountId := "CHK10002",
         amount := 100, type := .DEPOSIT, description := "Initial deposit" }],
    nextCustomerId := 1001,
    nextAccountId := 10002,
    nextTransactionId := 2 }

/-- A loan account opened with principal 1200 over 12 months, with its seed
record. -/
def sampleLoan : Account ℚ :=
  (LoanAccount.new (R := ℚ) "LOAN10003" "CUST1001" 1200 12).addTransaction
    { transactionId := 3, fromAccountId := "BANK", toAccountId := "LOAN10003",
      amount := 1200, type := .DEPOSIT, description := "Loan disbursement" }

/-- The bank `sampleBank` after its customer has opened the loan `sampleLoan`. -/
def sampleLoanBank : Bank ℚ :=
  { sampleBank with
    customers :=
      [("CUST1001",
        { customerId := "CUST1001", firstName := "Ada", lastName := "Byron",
          email := "", phone := "", address := "",
          accountIds := ["SAV10001", "CHK10002", "LOAN10003"] })],
    accounts :=
      [("CHK10002", sampleChecking), ("LOAN10003", sampleLoan), ("SAV10001", sampleSavings)],
    allTransactions := sampleBank.allTransactions ++
      [{ transactionId := 3, fromAccountId := "BANK", toAccountId := "LOAN10003",
         amount := 1200, type := .DEPOSIT, description := "Loan disbursement" }],
    nextAccountId := 10003,
    nextTransactionId := 3 }

/-- The customer of `sampleBank`. -/
def sampleCustomer : Customer :=
  { customerId := "CUST1001", firstName := "Ada", lastName := "Byron",
    email := "", phone := "", address := "",
    accountIds := ["SAV10001", "CHK10002"] }

/-- A savings account holding the double nearest to 1998.57. -/
def doubleSavings : Account F64 :=
  { accountId := "SAV10001", customerId := "CUST1001", balance := 1998.57,
    isActive := true,
    transactionHistory :=
      [{ transactionId := 1, fromAccountId := "BANK", toAccountId := "SAV10001",
         amount := 1998.57, type := .DEPOSIT, description := "Initial deposit" }],
    cls := .savings }

/-- A checking account holding the double nearest to 100.1. -/
def doubleChecking : Account F64 :=
  { accountId := "CHK10002", customerId := "CUST1001", balance := 100.1,
    isActive := true,
    transactionHistory :=
      [{ transactionId := 2, fromAccountId := "BANK", toAccountId := "CHK10002",
         amount := 100.1, type := .DEPOSIT, description := "Initial deposit" }],
    cls := .checking }

/-- A bank of the program, in `double`, with one customer holding the accounts
`doubleSavings` and `doubleChecking`, as `createCustomer`,
`createSavingsAccount` and `createCheckingAccount` leave it. -/
def doubleBank : Bank F64 :=
  { bankName := "Sample",
    customers :=
      [("CUST1001",
        { customerId := "CUST1001", firstName := "Ada", lastName := "Byron",
          email := "", phone := "", address := "",
          accountIds := ["SAV10001", "CHK10002"] })],
    accounts :=
      [("CHK10002", doubleChecking), ("SAV10001", doubleSavings)],
    allTransactions :=
      [{ transactionId := 1, fromAccountId := "BANK", toAccountId := "SAV10001",
         amount := 1998.57, type := .DEPOSIT, description := "Initial deposit" },
       { transactionId := 2, fromAccountId := "BANK", toAccountId := "CHK10002",
         amount := 100.1, type := .DEPOSIT, description := "Initial deposit" }],
    nextCustomerId := 1001,
    nextAccountId := 10002,
    nextTransactionId := 2 }

/-! ## Lemmas on exact arithmetic -/

theorem SavingsAccount.savingsRate_exact :
    (SavingsAccount.interestRate : ℚ) = 35 / 1000 := by
  norm_num [SavingsAccount.interestRate]

theorem LoanAccount.loanRate_exact : (LoanAccount.interestRate : ℚ) = 65 / 1000 := by
  norm_num [LoanAccount.interestRate]

theorem CMath.abs_exact (x : ℚ) : CMath.abs x = |x| := rfl

theorem CMath.pow_exact (x : ℚ) (n : Int) : CMath.pow x n = x ^ n := rfl

/-! ## Lemmas on the arithmetic of `double`

The alignment of two doubles shifts a significand by up to 2098 binary digits;
the two options let the evaluation of the operations run that far. -/

set_option exponentiation.threshold 2200

set_option maxRecDepth 4000

theorem F64.toRat_fin (s : Bool) (m : Nat) (e : Int) :
    F64.toRat (.fin s m e) = some ((F64.signed s m : ℚ) * 2 ^ e) := rfl

/-- In `double`, with a zero term the amortisation formula of the constructor of
`LoanAccount` divides a positive number by `pow(1 + r, 0) - 1 = 0`: the
installment stored is `+∞`. -/
theorem LoanAccount.new_double_term_zero :
    LoanAccount.getMonthlyPayment (LoanAccount.new (R := F64) "LOAN10003" "CUST1001" 1200 0) =
      .inf false := by
  decide

/-- In `double`, one month of interest: the Savings account of `doubleBank`, at
1998.57, goes to 2004.3991624999999, the Checking account, at 100.1, to
100.10834166666666, and a Loan owing 1998.57 to -2009.3955875; every product,
quotient and sum is rounded. -/
theorem Account.calculateInterest_double :
    doubleSavings.calculateInterest.balance = 2004.3991624999999 ∧
    doubleChecking.calculateInterest.balance = 100.10834166666666 ∧
    (LoanAccount.new (R := F64) "LOAN10003" "CUST1001" 1998.57 12).calculateInterest.balance =
      -2009.3955875 := by
  decide

/-- In `double` a transfer does not move the source balance by exactly the
amount: in `doubleBank`, sending 0.1 from the Checking account, at 100.1, leaves
it at 100.0, and the difference of the two numbers is not 100. -/
theorem doubleBank_transfer_rounds :
    (doubleBank.transfer "CHK10002" "SAV10001" 0.1).2 = .ok () ∧
    doubleBank.balanceOf "CHK10002" = some 100.1 ∧
    (doubleBank.transfer "CHK10002" "SAV10001" 0.1).1.balanceOf "CHK10002" = some 100 ∧
    ∃ b a : ℚ, F64.toRat 100.1 = some b ∧ F64.toRat 0.1 = some a ∧ b - a ≠ 100 := by
  have hb : (100.1 : F64) = .fin false 7043911292184166 (-46) := by decide
  have ha : (0.1 : F64) = .fin false 7205759403792794 (-56) := by decide
  have h1 : ¬ ((0.1 : F64) ≤ 0) := by decide
  have h2 : ¬ ((100 : F64) < -500) := by decide
  have h3 : (100.1 : F64) - 0.1 = 100 := by decide
  have h4 : ¬ ((100 : F64) < 0) := by decide
  have hne : ¬ ("SAV10001" = "CHK10002") := by decide
  refine ⟨?_, ?_, ?_, 7043911292184166 / 2 ^ 46, 7205759403792794 / 2 ^ 56, ?_, ?_,
    by norm_num⟩
  · simp [Bank.transfer, Bank.findAccount, doubleBank, mapFind, Account.withdraw,
      doubleChecking, CheckingAccount.withdraw, CheckingAccount.overdraftLimit,
      Account.deposit, doubleSavings, SavingsAccount.deposit, h1, h2, h3, h4]
  · simp [Bank.balanceOf, Bank.findAccount, doubleBank, mapFind, doubleChecking,
      Account.getBalance]
  · simp [Bank.transfer, Bank.findAccount, doubleBank, mapFind, mapModify, Bank.modifyAccount,
      Bank.makeTransaction, Bank.pushTransaction, Account.addTransaction, Bank.balanceOf,
      Account.getBalance, Account.withdraw, doubleChecking, CheckingAccount.withdraw,
      CheckingAccount.overdraftLimit, Account.deposit, doubleSavings, SavingsAccount.deposit,
      h1, h2, h3, h4, hne]
  · rw [hb]; norm_num [F64.toRat_fin, F64.signed]
  · rw [ha]; norm_num [F64.toRat_fin, F64.signed]

/-! ## Lemmas on tables -/

theorem mapFind_mapModify_self {α : Type} (m : List (String × α)) (k : String) (f : α → α) :
    mapFind (mapModify m k f) k = (mapFind m k).map f := by
  induction m with
  | nil => rfl
  | cons p rest ih =>
    obtain ⟨k', v⟩ := p
    by_cases h : k' = k
    · simp [mapFind, mapModify, h]
    · simp [mapFind, mapModify, h, ih]

theorem mapFind_mapModify_of_ne {α : Type} (m : List (String × α)) (k k' : String)
    (f : α → α) (h : k ≠ k') : mapFind (mapModify m k f) k' = mapFind m k' := by
  induction m with
  | nil => rfl
  | cons p rest ih =>
    obtain ⟨k₀, v⟩ := p
    by_cases h₀ : k₀ = k
    · subst h₀
      simp [mapFind, mapModify, h]
    · simp [mapFind, mapModify, h₀, ih]

theorem mapModify_const_of_mapFind {α : Type} (m : List (String × α)) (k : String) (v : α)
    (h : mapFind m k = some v) : mapModify m k (fun _ => v) = m := by
  induction m with
  | nil => rfl
  | cons p rest ih =>
    obtain ⟨k', v'⟩ := p
    by_cases h' : k' = k
    · simp [mapFind, h'] at h
      simp [mapModify, h', h]
    · simp [mapFind, h'] at h
      simp [mapModify, h', ih h]

/-! ## Lemmas on the account operations -/

theorem Account.getAccountType_savings {acc : Account ℚ}
    (h : acc.getAccountType = .SAVINGS) : acc.cls = .savings := by
  cases hc : acc.cls <;> simp [Account.getAccountType, hc] at h ⊢

theorem Account.getAccountType_checking {acc : Account ℚ}
    (h : acc.getAccountType = .CHECKING) : acc.cls = .checking := by
  cases hc : acc.cls <;> simp [Account.getAccountType, hc] at h ⊢

theorem Account.getAccountType_loan {acc : Account ℚ}
    (h : acc.getAccountType = .LOAN) : ∃ P n m, acc.cls = .loan P n m := by
  cases hc : acc.cls <;> simp [Account.getAccountType, hc] at h ⊢

/-- A deposit is the same computation in the three classes. -/
theorem Account.deposit_eq (acc : Account ℚ) (a : ℚ) :
    acc.deposit a =
      if a ≤ 0 then (acc, .error .InvalidAmount)
      else ({ acc with balance := acc.balance + a }, .ok ()) := by
  cases hc : acc.cls <;>
    simp [Account.deposit, hc, SavingsAccount.deposit, CheckingAccount.deposit,
      LoanAccount.deposit]

/-- A withdrawal that does not return `true` leaves the account object as it was. -/
theorem Account.withdraw_unchanged (acc : Account ℚ) (a : ℚ)
    (h : (acc.withdraw a).2 ≠ .ok true) : (acc.withdraw a).1 = acc := by
  cases hc : acc.cls with
  | savings =>
    simp only [Account.withdraw, hc, SavingsAccount.withdraw] at h ⊢
    split_ifs at h ⊢ <;> simp_all
  | checking =>
    simp only [Account.withdraw, hc, CheckingAccount.withdraw] at h ⊢
    split_ifs at h ⊢ <;> simp_all
  | loan P n m =>
    simp [Account.withdraw, hc, LoanAccount.withdraw]

/-- A withdrawal that returns `true` had a positive amount and changed the
balance only, by the amount and, on a checking account left negative, the fee. -/
theorem Account.withdraw_ok (acc : Account ℚ) (a : ℚ)
    (h : (acc.withdraw a).2 = .ok true) :
    0 < a ∧
    (acc.withdraw a).1 =
      { acc with balance := acc.balance - a -
          (if acc.getAccountType = .CHECKING ∧ acc.balance - a < 0 then 35 else 0) } := by
  cases hc : acc.cls with
  | savings =>
    simp only [Account.withdraw, hc, SavingsAccount.withdraw] at h ⊢
    split_ifs at h ⊢ <;> simp_all [Account.getAccountType]
  | checking =>
    simp only [Account.withdraw, hc, CheckingAccount.withdraw] at h ⊢
    split_ifs at h ⊢ <;> simp_all [Account.getAccountType, CheckingAccount.overdraftFee]
  | loan P n m =>
    simp [Account.withdraw, hc, LoanAccount.withdraw] at h

theorem mapKeys_mapModify {α : Type} (m : List (String × α)) (k : String) (f : α → α) :
    mapKeys (mapModify m k f) = mapKeys m := by
  induction m with
  | nil => rfl
  | cons p rest ih =>
    obtain ⟨k', v⟩ := p
    by_cases h : k' = k
    · simp [mapModify, mapKeys, h]
    · simp only [mapKeys] at ih
      simp [mapModify, mapKeys, h, ih]

theorem length_mapModify {α : Type} (m : List (String × α)) (k : String) (f : α → α) :
    (mapModify m k f).length = m.length := by
  have := congrArg List.length (mapKeys_mapModify m k f)
  simpa [mapKeys] using this

theorem mapFind_eq_none_iff {α : Type} (m : List (String × α)) (k : String) :
    mapFind m k = none ↔ k ∉ mapKeys m := by
  induction m with
  | nil => simp [mapFind, mapKeys]
  | cons p rest ih =>
    obtain ⟨k', v⟩ := p
    simp only [mapKeys] at ih
    by_cases h : k' = k
    · simp [mapFind, mapKeys, h]
    · simp [mapFind, mapKeys, h, ih, Ne.symm h]

theorem mem_of_mapFind {α : Type} (m : List (String × α)) (k : String) (v : α)
    (h : mapFind m k = some v) : (k, v) ∈ m := by
  induction m with
  | nil => simp [mapFind] at h
  | cons p rest ih =>
    obtain ⟨k', v'⟩ := p
    by_cases h' : k' = k
    · simp [mapFind, h'] at h
      simp [h', h]
    · simp [mapFind, h'] at h
      exact List.mem_cons_of_mem _ (ih h)

theorem mapFind_mapInsert_self {α : Type} (m : List (String × α)) (k : String) (v : α) :
    mapFind (mapInsert m k v) k = some v := by
  induction m with
  | nil => simp [mapInsert, mapFind]
  | cons p rest ih =>
    obtain ⟨k', v'⟩ := p
    unfold mapInsert
    by_cases h1 : k < k'
    · simp [h1, mapFind]
    · by_cases h2 : k = k'
      · simp [h1, h2, mapFind]
      · simp [h1, h2, mapFind, Ne.symm h2, ih]

theorem mapFind_mapInsert_of_ne {α : Type} (m : List (String × α)) (k k' : String) (v : α)
    (h : k ≠ k') : mapFind (mapInsert m k v) k' = mapFind m k' := by
  induction m with
  | nil => simp [mapInsert, mapFind, h]
  | cons p rest ih =>
    obtain ⟨k₀, v₀⟩ := p
    unfold mapInsert
    by_cases h1 : k < k₀
    · simp [h1, mapFind, h]
    · by_cases h2 : k = k₀
      · subst h2
        simp [h1, mapFind, h]
      · by_cases h3 : k₀ = k'
        · subst h3
          simp [h1, h2, mapFind]
        · simp [h1, h2, mapFind, h3, ih]

/-- Inserting under a key the table does not hold adds one entry and moves none. -/
theorem mapInsert_perm {α : Type} (m : List (String × α)) (k : String) (v : α)
    (h : k ∉ mapKeys m) : (mapInsert m k v).Perm ((k, v) :: m) := by
  induction m with
  | nil => simp [mapInsert]
  | cons p rest ih =>
    obtain ⟨k', v'⟩ := p
    simp only [mapKeys, List.map_cons, List.mem_cons, not_or] at h
    unfold mapInsert
    by_cases h1 : k < k'
    · simp [h1]
    · simp only [h1, if_false, h.1]
      exact (List.Perm.cons _ (ih h.2)).trans (List.Perm.swap _ _ _)

/-! ## Lemmas on identifiers -/

theorem digitChar_step (acc k : Nat) (hk : k < 10) :
    (if (Nat.digitChar k).isDigit then 10 * acc + ((Nat.digitChar k).toNat - 48) else 0) =
      10 * acc + k := by
  interval_cases k <;> rfl

/-- Reading back the digits `Nat.toDigitsCore` produces gives the number. -/
theorem foldl_toDigitsCore (fuel : Nat) : ∀ (n : Nat) (ds : List Char), n < fuel →
    List.foldl (fun acc c => if c.isDigit then 10 * acc + (c.toNat - 48) else 0) 0
      (Nat.toDigitsCore 10 fuel n ds) =
    List.foldl (fun acc c => if c.isDigit then 10 * acc + (c.toNat - 48) else 0) n ds := by
  induction fuel with
  | zero => intro n ds h; omega
  | succ fuel ih =>
    intro n ds h
    unfold Nat.toDigitsCore
    by_cases h0 : n / 10 = 0
    · simp only [h0, if_true, List.foldl_cons]
      rw [digitChar_step 0 (n % 10) (Nat.mod_lt _ (by norm_num))]
      congr 1
      omega
    · simp only [h0, if_false]
      rw [ih (n / 10) _ (by omega), List.foldl_cons,
        digitChar_step (n / 10) (n % 10) (Nat.mod_lt _ (by norm_num))]
      congr 1
      omega

theorem idNumber_append_repr (p : String) (m : Nat)
    (hp : List.foldl (fun acc c => if c.isDigit then 10 * acc + (c.toNat - 48) else 0) 0
      p.data = 0) :
    idNumber (p ++ Nat.repr m) = m := by
  unfold idNumber
  rw [String.data_append, List.foldl_append, hp]
  exact foldl_toDigitsCore (m + 1) m [] (Nat.lt_succ_self m)

/-- The identifiers the three account-opening members build from a counter value
`n ≥ 0` have the number `n`. -/
theorem idNumber_generated (n : Int) (h : 0 ≤ n) :
    (idNumber ("SAV" ++ toString n) : Int) = n ∧
    (idNumber ("CHK" ++ toString n) : Int) = n ∧
    (idNumber ("LOAN" ++ toString n) : Int) = n := by
  obtain ⟨m, rfl⟩ := Int.eq_ofNat_of_zero_le h
  have e : toString (m : Int) = Nat.repr m := rfl
  rw [e, idNumber_append_repr _ _ (by decide), idNumber_append_repr _ _ (by decide),
    idNumber_append_repr _ _ (by decide)]
  exact ⟨rfl, rfl, rfl⟩

/-! ## Lemmas on well-formed tables -/

theorem Account.deposit_accountId (acc : Account ℚ) (a : ℚ) :
    (acc.deposit a).1.accountId = acc.accountId := by
  rw [Account.deposit_eq]
  split <;> rfl

theorem Account.withdraw_accountId (acc : Account ℚ) (a : ℚ) :
    (acc.withdraw a).1.accountId = acc.accountId := by
  by_cases h : (acc.withdraw a).2 = .ok true
  · rw [(Account.withdraw_ok acc a h).2]
  · rw [Account.withdraw_unchanged acc a h]

theorem Account.calculateInterest_accountId (acc : Account ℚ) :
    acc.calculateInterest.accountId = acc.accountId := by
  cases hc : acc.cls <;>
    simp only [Account.calculateInterest, hc, SavingsAccount.calculateInterest,
      CheckingAccount.calculateInterest, LoanAccount.calculateInterest]
  split <;> rfl

theorem TableOK.mapModify {m : List (String × Account ℚ)} {n : Int} (h : TableOK m n)
    (k : String) (f : Account ℚ → Account ℚ)
    (hf : ∀ a, mapFind m k = some a → (f a).accountId = a.accountId) :
    TableOK (mapModify m k f) n := by
  obtain ⟨hb, hn, he⟩ := h
  refine ⟨by rwa [mapKeys_mapModify], by rwa [mapKeys_mapModify], ?_⟩
  clear hb hn
  induction m with
  | nil => simp [Banking.mapModify]
  | cons p rest ih =>
    obtain ⟨k', v⟩ := p
    by_cases h' : k' = k
    · subst h'
      intro q hq
      simp only [Banking.mapModify, if_true, List.mem_cons] at hq
      rcases hq with rfl | hq
      · have := he (k', v) (List.mem_cons_self _ _)
        simp only at this
        simp only [hf v (by simp [mapFind]), this]
      · exact he q (List.mem_cons_of_mem _ hq)
    · intro q hq
      simp only [Banking.mapModify, h', if_false, List.mem_cons] at hq
      rcases hq with rfl | hq
      · exact he _ (List.mem_cons_self _ _)
      · exact ih (fun a ha => hf a (by simpa [mapFind, h'] using ha))
          (fun p hp => he p (List.mem_cons_of_mem _ hp)) q hq

theorem TableOK.mapInsert {m : List (String × Account ℚ)} {n : Int} (h : TableOK m n)
    (k : String) (v : Account ℚ) (hk : (idNumber k : Int) = n + 1) (hv : v.accountId = k) :
    TableOK (mapInsert m k v) (n + 1) := by
  obtain ⟨hb, hn, he⟩ := h
  have hfresh : k ∉ mapKeys m := by
    intro hmem
    have := hb k hmem
    omega
  have hp := mapInsert_perm m k v hfresh
  have hpk : (mapKeys (Banking.mapInsert m k v)).Perm (k :: mapKeys m) := by
    simpa [mapKeys] using hp.map Prod.fst
  refine ⟨?_, ?_, ?_⟩
  · intro k' hk'
    rcases List.mem_cons.mp (hpk.mem_iff.mp hk') with rfl | hmem
    · omega
    · have := hb k' hmem
      omega
  · exact hpk.nodup_iff.mpr (List.nodup_cons.mpr ⟨hfresh, hn⟩)
  · intro q hq
    rcases List.mem_cons.mp (hp.mem_iff.mp hq) with rfl | hmem
    · exact hv
    · exact he q hmem

theorem mapKeys_processInterestEntries (m : List (String × Account ℚ)) :
    ∀ n, mapKeys (processInterestEntries m n).1 = mapKeys m := by
  induction m with
  | nil => intro n; rfl
  | cons p rest ih =>
    obtain ⟨k, a⟩ := p
    intro n
    unfold processInterestEntries
    split
    · simpa [mapKeys] using ih (n + 1)
    · simpa [mapKeys] using ih n

theorem TableOK.processInterestEntries {m : List (String × Account ℚ)} {n : Int}
    (h : TableOK m n) (c : Int) : TableOK (processInterestEntries m c).1 n := by
  obtain ⟨hb, hn, he⟩ := h
  refine ⟨by rwa [mapKeys_processInterestEntries], by rwa [mapKeys_processInterestEntries],
    ?_⟩
  clear hb hn
  induction m generalizing c with
  | nil => intro q hq; simp [Banking.processInterestEntries] at hq
  | cons p rest ih =>
    obtain ⟨k, a⟩ := p
    have hrest := fun c => ih (c := c) (fun p hp => he p (List.mem_cons_of_mem _ hp))
    have ha : a.accountId = k := he (k, a) (List.mem_cons_self _ _)
    intro q hq
    unfold Banking.processInterestEntries at hq
    split at hq
    · simp only [List.mem_cons] at hq
      rcases hq with rfl | hq
      · simp [Account.addTransaction, Account.calculateInterest_accountId, ha]
      · exact hrest _ q hq
    · simp only [List.mem_cons] at hq
      rcases hq with rfl | hq
      · exact ha
      · exact hrest _ q hq

/-! ## Lemmas on sequences of account operations -/

/-- One month of a loan account whose balance is not positive and whose
installment `M` is positive: the balance `b` becomes `b * (1 + 0.065/12) + M`
and the class members stay. -/
theorem LoanAccount.payInstallment_eq (acc : Account ℚ) (P : ℚ) (n : Int) (M : ℚ)
    (hc : acc.cls = .loan P n M) (hM : 0 < M) (hb : acc.balance ≤ 0) :
    (LoanAccount.payInstallment acc).cls = .loan P n M ∧
    (LoanAccount.payInstallment acc).balance = acc.balance * (1 + (65 / 1000) / 12) + M := by
  have hi : acc.calculateInterest =
      { acc with balance := acc.balance - |acc.balance| * (65 / 1000) / 12 } := by
    simp only [Account.calculateInterest, hc, LoanAccount.calculateInterest,
      LoanAccount.loanRate_exact, CMath.abs_exact]
  have hm : LoanAccount.getMonthlyPayment acc = M := by
    simp only [LoanAccount.getMonthlyPayment, hc]
  simp only [LoanAccount.payInstallment, hm, hi, Account.deposit_eq, if_neg (not_le.mpr hM)]
  refine ⟨hc, ?_⟩
  rw [abs_of_nonpos hb]
  ring

/-! ## Lemmas on the monthly interest loop -/

theorem Account.calculateInterest_fields (acc : Account ℚ) :
    acc.calculateInterest.accountId = acc.accountId ∧
    acc.calculateInterest.transactionHistory = acc.transactionHistory ∧
    acc.calculateInterest.isActive = acc.isActive ∧
    acc.calculateInterest.cls = acc.cls := by
  cases hc : acc.cls <;>
    simp only [Account.calculateInterest, hc, SavingsAccount.calculateInterest,
      CheckingAccount.calculateInterest, LoanAccount.calculateInterest, and_self]
  split <;> simp [hc]

theorem processInterestEntries_nil (n : Int) :
    processInterestEntries ([] : List (String × Account ℚ)) n = ([], [], n) := rfl

theorem processInterestEntries_active (k : String) (a : Account ℚ)
    (rest : List (String × Account ℚ)) (n : Int) (h : a.isActive = true) :
    processInterestEntries ((k, a) :: rest) n =
      ((k, a.calculateInterest.addTransaction (interestRecord n a.accountId)) ::
          (processInterestEntries rest (n + 1)).1,
        interestRecord n a.accountId :: (processInterestEntries rest (n + 1)).2.1,
        (processInterestEntries rest (n + 1)).2.2) := by
  rw [processInterestEntries]
  simp only [h, if_true, interestRecord, (Account.calculateInterest_fields a).1]

theorem processInterestEntries_inactive (k : String) (a : Account ℚ)
    (rest : List (String × Account ℚ)) (n : Int) (h : a.isActive = false) :
    processInterestEntries ((k, a) :: rest) n =
      ((k, a) :: (processInterestEntries rest n).1, (processInterestEntries rest n).2.1,
        (processInterestEntries rest n).2.2) := by
  rw [processInterestEntries]
  simp [h]

/-- The records the loop files: the counter advances by their number, they are
addressed, in order, to the active accounts of the table, each is an
`INTEREST_CREDIT` of amount `0` from "BANK" with an identifier above the old
counter and at most the new one, and their identifiers increase. -/
theorem processInterestEntries_filed (m : List (String × Account ℚ)) : ∀ n : Int,
    (processInterestEntries m n).2.2 = n + (processInterestEntries m n).2.1.length ∧
    (processInterestEntries m n).2.1.map Transaction.toAccountId =
      (m.filter (fun p => p.2.isActive)).map (fun p => p.2.accountId) ∧
    (∀ t ∈ (processInterestEntries m n).2.1,
      t.type = .INTEREST_CREDIT ∧ t.amount = 0 ∧ t.fromAccountId = "BANK" ∧
      t.description = "Monthly interest" ∧ n < t.transactionId ∧
      t.transactionId ≤ (processInterestEntries m n).2.2) ∧
    (processInterestEntries m n).2.1.Pairwise
      (fun t u => t.transactionId < u.transactionId) := by
  induction m with
  | nil =>
    intro n
    simp [processInterestEntries_nil]
  | cons p rest ih =>
    obtain ⟨k, a⟩ := p
    intro n
    by_cases h : a.isActive = true
    · obtain ⟨h1, h2, h3, h4⟩ := ih (n + 1)
      rw [processInterestEntries_active k a rest n h]
      refine ⟨?_, ?_, ?_, ?_⟩
      · simp only [h1, List.length_cons]
        push_cast
        ring
      · simp [h, h2, interestRecord]
      · intro t ht
        simp only [List.mem_cons] at ht
        rcases ht with rfl | ht
        · refine ⟨rfl, rfl, rfl, rfl, by simp [interestRecord], ?_⟩
          simp only [h1, interestRecord]
          have : (0 : Int) ≤ ((processInterestEntries rest (n + 1)).2.1.length : Int) :=
            Int.natCast_nonneg _
          omega
        · obtain ⟨a1, a2, a3, a4, a5, a6⟩ := h3 t ht
          exact ⟨a1, a2, a3, a4, by omega, a6⟩
      · refine List.pairwise_cons.mpr ⟨?_, h4⟩
        intro t ht
        have := (h3 t ht).2.2.2.2.1
        simp only [interestRecord]
        exact this
    · have h' : a.isActive = false := by simpa using h
      rw [processInterestEntries_inactive k a rest n h']
      obtain ⟨h1, h2, h3, h4⟩ := ih n
      exact ⟨h1, by simp [h', h2], h3, h4⟩

/-- The entries the loop leaves: a closed account is as it was; an active one
has accrued its interest once and has one of the filed records, addressed to
it, appended to its log. -/
theorem processInterestEntries_find (m : List (String × Account ℚ)) : ∀ (n : Int)
    (k : String) (A : Account ℚ), mapFind m k = some A →
    (A.isActive = false → mapFind (processInterestEntries m n).1 k = some A) ∧
    (A.isActive = true → ∃ t ∈ (processInterestEntries m n).2.1,
      t.toAccountId = A.accountId ∧
      mapFind (processInterestEntries m n).1 k =
        some (A.calculateInterest.addTransaction t)) := by
  induction m with
  | nil =>
    intro n k A hA
    simp [mapFind] at hA
  | cons p rest ih =>
    obtain ⟨k', a⟩ := p
    intro n k A hA
    by_cases hk : k' = k
    · subst hk
      simp only [mapFind, if_true, Option.some.injEq] at hA
      subst hA
      constructor
      · intro h
        rw [processInterestEntries_inactive k' a rest n h]
        simp [mapFind]
      · intro h
        rw [processInterestEntries_active k' a rest n h]
        exact ⟨_, List.mem_cons_self _ _, rfl, by simp [mapFind]⟩
    · simp only [mapFind, hk, if_false] at hA
      by_cases h : a.isActive = true
      · obtain ⟨i1, i2⟩ := ih (n + 1) k A hA
        rw [processInterestEntries_active k' a rest n h]
        refine ⟨fun hc => by simpa [mapFind, hk] using i1 hc, fun ht => ?_⟩
        obtain ⟨t, htm, hto, hf⟩ := i2 ht
        exact ⟨t, List.mem_cons_of_mem _ htm, hto, by simpa [mapFind, hk] using hf⟩
      · have h' : a.isActive = false := by simpa using h
        obtain ⟨i1, i2⟩ := ih n k A hA
        rw [processInterestEntries_inactive k' a rest n h']
        refine ⟨fun hc => by simpa [mapFind, hk] using i1 hc, fun ht => ?_⟩
        obtain ⟨t, htm, hto, hf⟩ := i2 ht
        exact ⟨t, htm, hto, by simpa [mapFind, hk] using hf⟩

/-- Where the entries the loop leaves come from. -/
theorem processInterestEntries_mem (m : List (String × Account ℚ)) : ∀ (n : Int)
    (p : String × Account ℚ), p ∈ (processInterestEntries m n).1 →
    ∃ A, (p.1, A) ∈ m ∧
      (p.2 = A ∨ ∃ t ∈ (processInterestEntries m n).2.1,
        t.toAccountId = A.accountId ∧ n < t.transactionId ∧
        p.2 = A.calculateInterest.addTransaction t) := by
  induction m with
  | nil =>
    intro n p hp
    simp [processInterestEntries_nil] at hp
  | cons q rest ih =>
    obtain ⟨k, a⟩ := q
    intro n p hp
    by_cases h : a.isActive = true
    · rw [processInterestEntries_active k a rest n h] at hp ⊢
      simp only [List.mem_cons] at hp
      rcases hp with rfl | hp
      · exact ⟨a, List.mem_cons_self _ _, Or.inr ⟨_, List.mem_cons_self _ _, rfl,
          by simp [interestRecord], rfl⟩⟩
      · obtain ⟨A, hA, hcase⟩ := ih (n + 1) p hp
        refine ⟨A, List.mem_cons_of_mem _ hA, ?_⟩
        rcases hcase with h1 | ⟨t, htm, hto, hlt, hp2⟩
        · exact Or.inl h1
        · exact Or.inr ⟨t, List.mem_cons_of_mem _ htm, hto, by omega, hp2⟩
    · have h' : a.isActive = false := by simpa using h
      rw [processInterestEntries_inactive k a rest n h'] at hp ⊢
      simp only [List.mem_cons] at hp
      rcases hp with rfl | hp
      · exact ⟨a, List.mem_cons_self _ _, Or.inl rfl⟩
      · obtain ⟨A, hA, hcase⟩ := ih n p hp
        exact ⟨A, List.mem_cons_of_mem _ hA, hcase⟩

/-! ## Lemmas on the bank operations -/

theorem Bank.findAccount_modifyAccount_self (self : Bank ℚ) (k : String)
    (f : Account ℚ → Account ℚ) :
    (self.modifyAccount k f).findAccount k = (self.findAccount k).map f := by
  simp [Bank.findAccount, Bank.modifyAccount, mapFind_mapModify_self]

theorem Bank.findAccount_modifyAccount_of_ne (self : Bank ℚ) (k k' : String)
    (f : Account ℚ → Account ℚ) (h : k ≠ k') :
    (self.modifyAccount k f).findAccount k' = self.findAccount k' := by
  simp [Bank.findAccount, Bank.modifyAccount, mapFind_mapModify_of_ne _ _ _ _ h]

theorem Bank.modifyAccount_const_of_findAccount (self : Bank ℚ) (k : String) (acc : Account ℚ)
    (h : self.findAccount k = some acc) : self.modifyAccount k (fun _ => acc) = self := by
  simp only [Bank.findAccount] at h
  simp [Bank.modifyAccount, mapModify_const_of_mapFind _ _ _ h]

/-- A transfer whose withdrawal does not return `true` ends with the outcome of
the withdrawal and leaves the bank as it was. -/
theorem Bank.transfer_of_withdraw_failed (self : Bank ℚ) (src dst : String) (amount : ℚ)
    (A B : Account ℚ) (hA : self.findAccount src = some A) (hB : self.findAccount dst = some B)
    (hw : (A.withdraw amount).2 ≠ .ok true) :
    self.transfer src dst amount = (self, (A.withdraw amount).2.map (fun _ => ())) := by
  have hun := Account.withdraw_unchanged A amount hw
  unfold Bank.transfer
  rw [hA, hB]
  simp only [hun, Bank.modifyAccount_const_of_findAccount self src _ hA]
  split
  · next e he => rw [he]; rfl
  · next he => rw [he]; rfl
  · next he => exact absurd he hw

/-- A transfer between two distinct accounts whose withdrawal returns `true`:
the outcome, the two account objects, the global log, the counter, and what is
left alone. -/
theorem Bank.transfer_of_withdraw_ok (self : Bank ℚ) (src dst : String) (amount : ℚ)
    (A B : Account ℚ) (hne : src ≠ dst)
    (hA : self.findAccount src = some A) (hB : self.findAccount dst = some B)
    (hok : (A.withdraw amount).2 = .ok true) :
    (self.transfer src dst amount).2 = .ok () ∧
    (self.transfer src dst amount).1.findAccount src =
      some ((A.withdraw amount).1.addTransaction (self.transferRecord src dst amount)) ∧
    (self.transfer src dst amount).1.findAccount dst =
      some (({ B with balance := B.balance + amount } : Account ℚ).addTransaction
        (self.transferRecord src dst amount)) ∧
    (self.transfer src dst amount).1.allTransactions =
      self.allTransactions ++ [self.transferRecord src dst amount] ∧
    (self.transfer src dst amount).1.nextTransactionId = self.nextTransactionId + 1 ∧
    (∀ k, k ≠ src → k ≠ dst →
      (self.transfer src dst amount).1.findAccount k = self.findAccount k) := by
  have hpos := (Account.withdraw_ok A amount hok).1
  have hdep : B.deposit amount = ({ B with balance := B.balance + amount }, .ok ()) := by
    simp [Account.deposit_eq, not_le.mpr hpos]
  unfold Bank.transfer
  rw [hA, hB]
  simp only [hok, if_neg (Ne.symm hne), hdep]
  refine ⟨?_, ?_, ?_, ?_, ?_, ?_⟩
  · trivial
  · simp [Bank.pushTransaction, Bank.makeTransaction, Bank.transferRecord, Bank.findAccount,
      Bank.modifyAccount, mapFind_mapModify_self, mapFind_mapModify_of_ne _ _ _ _ hne,
      mapFind_mapModify_of_ne _ _ _ _ (Ne.symm hne)]
    exact ⟨A, hA⟩
  · simp [Bank.pushTransaction, Bank.makeTransaction, Bank.transferRecord, Bank.findAccount,
      Bank.modifyAccount, mapFind_mapModify_self, mapFind_mapModify_of_ne _ _ _ _ hne,
      mapFind_mapModify_of_ne _ _ _ _ (Ne.symm hne)]
    exact ⟨B, hB⟩
  · rfl
  · rfl
  · intro k hks hkd
    simp [Bank.pushTransaction, Bank.makeTransaction, Bank.findAccount,
      Bank.modifyAccount, mapFind_mapModify_of_ne _ _ _ _ (Ne.symm hks),
      mapFind_mapModify_of_ne _ _ _ _ (Ne.symm hkd)]

/-- On an unknown account `Bank::deposit` throws at once. -/
theorem Bank.deposit_of_none (self : Bank ℚ) (accountId : String) (amount : ℚ)
    (h : self.findAccount accountId = none) :
    self.deposit accountId amount = (self, .error .AccountNotFound) := by
  unfold Bank.deposit
  rw [h]

/-- On an unknown account `Bank::withdraw` throws at once. -/
theorem Bank.withdraw_of_none (self : Bank ℚ) (accountId : String) (amount : ℚ)
    (h : self.findAccount accountId = none) :
    self.withdraw accountId amount = (self, .error .AccountNotFound) := by
  unfold Bank.withdraw
  rw [h]

/-- With an unknown source or destination `Bank::transfer` throws at once. -/
theorem Bank.transfer_of_none (self : Bank ℚ) (src dst : String) (amount : ℚ)
    (h : self.findAccount src = none ∨ self.findAccount dst = none) :
    self.transfer src dst amount = (self, .error .AccountNotFound) := by
  unfold Bank.transfer
  rcases h with h | h
  · rw [h]
  · rw [h]
    cases self.findAccount src <;> rfl

/-- A deposit of a non-positive amount into an existing account throws
InvalidAmount and leaves the bank as it was. -/
theorem Bank.deposit_of_nonpos (self : Bank ℚ) (accountId : String) (amount : ℚ)
    (A : Account ℚ)
    (hA : self.findAccount accountId = some A) (ha : amount ≤ 0) :
    self.deposit accountId amount = (self, .error .InvalidAmount) := by
  unfold Bank.deposit
  rw [hA]
  simp only [Account.deposit_eq, if_pos ha,
    Bank.modifyAccount_const_of_findAccount self accountId _ hA]

/-- A deposit of a positive amount into an existing account: the outcome, the
account object, the global log, the counter, and what is left alone. -/
theorem Bank.deposit_of_pos (self : Bank ℚ) (accountId : String) (amount : ℚ) (A : Account ℚ)
    (hA : self.findAccount accountId = some A) (ha : 0 < amount) :
    (self.deposit accountId amount).2 = .ok () ∧
    (self.deposit accountId amount).1.findAccount accountId =
      some (({ A with balance := A.balance + amount } : Account ℚ).addTransaction
        (self.depositRecord accountId amount)) ∧
    (self.deposit accountId amount).1.allTransactions =
      self.allTransactions ++ [self.depositRecord accountId amount] ∧
    (self.deposit accountId amount).1.nextTransactionId = self.nextTransactionId + 1 ∧
    (∀ k, k ≠ accountId →
      (self.deposit accountId amount).1.findAccount k = self.findAccount k) ∧
    (self.deposit accountId amount).1.customers = self.customers ∧
    (self.deposit accountId amount).1.nextAccountId = self.nextAccountId ∧
    (self.deposit accountId amount).1.nextCustomerId = self.nextCustomerId := by
  unfold Bank.deposit
  rw [hA]
  simp only [Account.deposit_eq, if_neg (not_le.mpr ha)]
  refine ⟨?_, ?_, ?_, ?_, ?_, ?_, ?_, ?_⟩
  · trivial
  · simp [Bank.pushTransaction, Bank.makeTransaction, Bank.depositRecord, Bank.findAccount,
      Bank.modifyAccount, mapFind_mapModify_self]
    exact ⟨A, hA⟩
  · rfl
  · rfl
  · intro k hk
    simp [Bank.pushTransaction, Bank.makeTransaction, Bank.findAccount,
      Bank.modifyAccount, mapFind_mapModify_of_ne _ _ _ _ (Ne.symm hk)]
  · rfl
  · rfl
  · rfl

/-- A withdrawal that does not return `true` ends `Bank::withdraw` with its
outcome and leaves the bank as it was. -/
theorem Bank.withdraw_of_failed (self : Bank ℚ) (accountId : String) (amount : ℚ)
    (A : Account ℚ)
    (hA : self.findAccount accountId = some A) (hw : (A.withdraw amount).2 ≠ .ok true) :
    self.withdraw accountId amount = (self, (A.withdraw amount).2.map (fun _ => ())) := by
  have hun := Account.withdraw_unchanged A amount hw
  unfold Bank.withdraw
  rw [hA]
  simp only [hun, Bank.modifyAccount_const_of_findAccount self accountId _ hA]
  split
  · next e he => rw [he]; rfl
  · next he => rw [he]; rfl
  · next he => exact absurd he hw

/-- A withdrawal that returns `true`: the outcome of `Bank::withdraw`, the
account object, the global log, the counter, and what is left alone. -/
theorem Bank.withdraw_of_ok (self : Bank ℚ) (accountId : String) (amount : ℚ) (A : Account ℚ)
    (hA : self.findAccount accountId = some A) (hok : (A.withdraw amount).2 = .ok true) :
    (self.withdraw accountId amount).2 = .ok () ∧
    (self.withdraw accountId amount).1.findAccount accountId =
      some ((A.withdraw amount).1.addTransaction (self.withdrawalRecord accountId amount)) ∧
    (self.withdraw accountId amount).1.allTransactions =
      self.allTransactions ++ [self.withdrawalRecord accountId amount] ∧
    (self.withdraw accountId amount).1.nextTransactionId = self.nextTransactionId + 1 ∧
    (∀ k, k ≠ accountId →
      (self.withdraw accountId amount).1.findAccount k = self.findAccount k) := by
  unfold Bank.withdraw
  rw [hA]
  simp only [hok]
  refine ⟨?_, ?_, ?_, ?_, ?_⟩
  · trivial
  · simp [Bank.pushTransaction, Bank.makeTransaction, Bank.withdrawalRecord,
      Bank.findAccount, Bank.modifyAccount, mapFind_mapModify_self]
    exact ⟨A, hA⟩
  · rfl
  · rfl
  · intro k hk
    simp [Bank.pushTransaction, Bank.makeTransaction, Bank.findAccount,
      Bank.modifyAccount, mapFind_mapModify_of_ne _ _ _ _ (Ne.symm hk)]

/-- A transfer between existing accounts, distinct or not, whose withdrawal
returns `true` does not throw. -/
theorem Bank.transfer_result_of_withdraw_ok (self : Bank ℚ) (src dst : String) (amount : ℚ)
    (A B : Account ℚ)
    (hA : self.findAccount src = some A) (hB : self.findAccount dst = some B)
    (hok : (A.withdraw amount).2 = .ok true) :
    (self.transfer src dst amount).2 = .ok () := by
  have hpos := (Account.withdraw_ok A amount hok).1
  unfold Bank.transfer
  rw [hA, hB]
  simp only [hok, Account.deposit_eq, if_neg (not_le.mpr hpos)]

/-- A transfer between existing accounts, distinct or not, whose withdrawal
returns `true` files its record in the global log and advances the counter. -/
theorem Bank.transfer_log_of_withdraw_ok (self : Bank ℚ) (src dst : String) (amount : ℚ)
    (A B : Account ℚ)
    (hA : self.findAccount src = some A) (hB : self.findAccount dst = some B)
    (hok : (A.withdraw amount).2 = .ok true) :
    (self.transfer src dst amount).1.allTransactions =
      self.allTransactions ++ [self.transferRecord src dst amount] ∧
    (self.transfer src dst amount).1.nextTransactionId = self.nextTransactionId + 1 := by
  have hpos := (Account.withdraw_ok A amount hok).1
  unfold Bank.transfer
  rw [hA, hB]
  simp only [hok, Account.deposit_eq, if_neg (not_le.mpr hpos)]
  exact ⟨rfl, rfl⟩

/-- The account-opening members throw AccountNotFound for an unknown customer
and leave the bank as it was. -/
theorem Bank.create_of_none (self : Bank ℚ) (customerId : String)
    (h : self.findCustomer customerId = none) :
    (∀ x, self.createSavingsAccount customerId x = (self, .error .AccountNotFound)) ∧
    (∀ x, self.createCheckingAccount customerId x = (self, .error .AccountNotFound)) ∧
    (∀ P n, self.createLoanAccount customerId P n = (self, .error .AccountNotFound)) := by
  refine ⟨?_, ?_, ?_⟩
  · intro x; unfold Bank.createSavingsAccount; rw [h]
  · intro x; unfold Bank.createCheckingAccount; rw [h]
  · intro P n; unfold Bank.createLoanAccount; rw [h]

/-- The account-opening members do not throw for a registered customer. -/
theorem Bank.create_result_of_some (self : Bank ℚ) (customerId : String) (c : Customer)
    (h : self.findCustomer customerId = some c) :
    (∀ x, (self.createSavingsAccount customerId x).2 =
      .ok ("SAV" ++ toString (self.nextAccountId + 1))) ∧
    (∀ x, (self.createCheckingAccount customerId x).2 =
      .ok ("CHK" ++ toString (self.nextAccountId + 1))) ∧
    (∀ P n, (self.createLoanAccount customerId P n).2 =
      .ok ("LOAN" ++ toString (self.nextAccountId + 1))) := by
  refine ⟨?_, ?_, ?_⟩
  · intro x; unfold Bank.createSavingsAccount; rw [h]
  · intro x; unfold Bank.createCheckingAccount; rw [h]
  · intro P n; unfold Bank.createLoanAccount; rw [h]

/-! ## The invariant on account identifiers -/

theorem Bank.IdsOK_pushTransaction (s : Bank ℚ) (t : Transaction ℚ) :
    (s.pushTransaction t).IdsOK ↔ s.IdsOK := Iff.rfl

theorem Bank.IdsOK_makeTransaction (s : Bank ℚ) (src dst : String) (amt : ℚ)
    (ty : TransactionType) (desc : String) :
    (s.makeTransaction src dst amt ty desc).2.IdsOK ↔ s.IdsOK := Iff.rfl

theorem Bank.IdsOK.modifyAccount {s : Bank ℚ} (h : s.IdsOK) (k : String)
    (f : Account ℚ → Account ℚ)
    (hf : ∀ a, s.findAccount k = some a → (f a).accountId = a.accountId) :
    (s.modifyAccount k f).IdsOK :=
  ⟨h.1, h.2.mapModify k f hf⟩

theorem Bank.IdsOK.addTransaction {s : Bank ℚ} (h : s.IdsOK) (k : String) (t : Transaction ℚ) :
    (s.modifyAccount k (fun a => a.addTransaction t)).IdsOK :=
  h.modifyAccount k _ (fun _ _ => rfl)

theorem Bank.IdsOK.new (name : String) (n : Int) : (Bank.new (R := ℚ) name n).IdsOK := by
  refine ⟨by simp [Bank.new], ?_, ?_, ?_⟩ <;> simp [Bank.new, mapKeys]

theorem Bank.IdsOK.createCustomer {s : Bank ℚ} (h : s.IdsOK)
    (firstName lastName email phone address : String) :
    (s.createCustomer firstName lastName email phone address).1.IdsOK := h

theorem Bank.IdsOK.registerAccount {s : Bank ℚ} (h : s.IdsOK)
    (customerId accountId : String) (account : Account ℚ) (seedAmount : ℚ) (desc : String)
    (hk : (idNumber accountId : Int) = s.nextAccountId + 1)
    (hv : account.accountId = accountId) :
    (Bank.registerAccount { s with nextAccountId := s.nextAccountId + 1 }
      customerId accountId account seedAmount desc).IdsOK := by
  have h1 : 0 ≤ s.nextAccountId + 1 := by have := h.1; omega
  have h2 := h.2.mapInsert accountId account hk hv
  exact ⟨h1, h2.mapModify accountId _ (fun _ _ => rfl)⟩

theorem Bank.IdsOK.createSavingsAccount {s : Bank ℚ} (h : s.IdsOK) (customerId : String)
    (x : ℚ) : (s.createSavingsAccount customerId x).1.IdsOK := by
  have hn : 0 ≤ s.nextAccountId + 1 := by have := h.1; omega
  unfold Bank.createSavingsAccount
  split
  · exact h
  · exact h.registerAccount customerId _ _ x _ (idNumber_generated _ hn).1 rfl

theorem Bank.IdsOK.createCheckingAccount {s : Bank ℚ} (h : s.IdsOK) (customerId : String)
    (x : ℚ) : (s.createCheckingAccount customerId x).1.IdsOK := by
  have hn : 0 ≤ s.nextAccountId + 1 := by have := h.1; omega
  unfold Bank.createCheckingAccount
  split
  · exact h
  · exact h.registerAccount customerId _ _ x _ (idNumber_generated _ hn).2.1 rfl

theorem Bank.IdsOK.createLoanAccount {s : Bank ℚ} (h : s.IdsOK) (customerId : String)
    (P : ℚ) (n : Int) : (s.createLoanAccount customerId P n).1.IdsOK := by
  have hn : 0 ≤ s.nextAccountId + 1 := by have := h.1; omega
  unfold Bank.createLoanAccount
  split
  · exact h
  · exact h.registerAccount customerId _ _ P _ (idNumber_generated _ hn).2.2 rfl

theorem Bank.IdsOK.deposit {s : Bank ℚ} (h : s.IdsOK) (accountId : String) (amount : ℚ) :
    (s.deposit accountId amount).1.IdsOK := by
  cases hA : s.findAccount accountId with
  | none => rw [Bank.deposit_of_none s accountId amount hA]; exact h
  | some A =>
    by_cases ha : amount ≤ 0
    · rw [Bank.deposit_of_nonpos s accountId amount A hA ha]; exact h
    · unfold Bank.deposit
      rw [hA]
      simp only [Account.deposit_eq, if_neg ha]
      rw [Bank.IdsOK_pushTransaction]
      refine Bank.IdsOK.addTransaction ?_ _ _
      rw [Bank.IdsOK_makeTransaction]
      exact h.modifyAccount accountId _ (fun a ha' => by
        rw [hA] at ha'
        cases ha'
        rfl)

theorem Bank.IdsOK.withdraw {s : Bank ℚ} (h : s.IdsOK) (accountId : String) (amount : ℚ) :
    (s.withdraw accountId amount).1.IdsOK := by
  cases hA : s.findAccount accountId with
  | none => rw [Bank.withdraw_of_none s accountId amount hA]; exact h
  | some A =>
    by_cases hok : (A.withdraw amount).2 = .ok true
    · unfold Bank.withdraw
      rw [hA]
      simp only [hok]
      rw [Bank.IdsOK_pushTransaction]
      refine Bank.IdsOK.addTransaction ?_ _ _
      rw [Bank.IdsOK_makeTransaction]
      exact h.modifyAccount accountId _ (fun a ha' => by
        rw [hA] at ha'
        cases ha'
        exact Account.withdraw_accountId _ amount)
    · rw [Bank.withdraw_of_failed s accountId amount A hA hok]; exact h

theorem Bank.IdsOK.transfer {s : Bank ℚ} (h : s.IdsOK) (src dst : String) (amount : ℚ) :
    (s.transfer src dst amount).1.IdsOK := by
  cases hA : s.findAccount src with
  | none => rw [Bank.transfer_of_none s src dst amount (Or.inl hA)]; exact h
  | some A =>
    cases hB : s.findAccount dst with
    | none => rw [Bank.transfer_of_none s src dst amount (Or.inr hB)]; exact h
    | some B =>
      by_cases hok : (A.withdraw amount).2 = .ok true
      · have hpos := (Account.withdraw_ok A amount hok).1
        have h1 : (s.modifyAccount src (fun _ => (A.withdraw amount).1)).IdsOK :=
          h.modifyAccount src _ (fun a ha' => by
            rw [hA] at ha'
            cases ha'
            exact Account.withdraw_accountId _ amount)
        unfold Bank.transfer
        rw [hA, hB]
        simp only [hok, Account.deposit_eq, if_neg (not_le.mpr hpos)]
        rw [Bank.IdsOK_pushTransaction]
        refine Bank.IdsOK.addTransaction ?_ _ _
        refine Bank.IdsOK.addTransaction ?_ _ _
        rw [Bank.IdsOK_makeTransaction]
        refine h1.modifyAccount dst _ (fun a ha' => ?_)
        by_cases hsd : dst = src
        · subst hsd
          rw [Bank.findAccount_modifyAccount_self, hA] at ha'
          simp only [Option.map_some', Option.some.injEq] at ha'
          subst ha'
          simp
        · rw [Bank.findAccount_modifyAccount_of_ne _ _ _ _ (Ne.symm hsd), hB] at ha'
          cases ha'
          simp [hsd]
      · rw [Bank.transfer_of_withdraw_failed s src dst amount A B hA hB hok]; exact h

theorem Bank.IdsOK.processMonthlyInterest {s : Bank ℚ} (h : s.IdsOK) :
    s.processMonthlyInterest.IdsOK :=
  ⟨h.1, h.2.processInterestEntries s.nextTransactionId⟩

theorem Bank.IdsOK.closeAccount {s : Bank ℚ} (h : s.IdsOK) (accountId : String) :
    (s.closeAccount accountId).IdsOK :=
  h.modifyAccount accountId _ (fun _ _ => rfl)

/-- Every reachable bank state satisfies the invariant on account identifiers. -/
theorem Bank.Reachable.idsOK {s : Bank ℚ} (h : s.Reachable) : s.IdsOK := by
  induction h with
  | new name n => exact Bank.IdsOK.new name n
  | createCustomer f l e p a _ ih => exact ih.createCustomer f l e p a
  | createSavingsAccount c x _ ih => exact ih.createSavingsAccount c x
  | createCheckingAccount c x _ ih => exact ih.createCheckingAccount c x
  | createLoanAccount c P n _ ih => exact ih.createLoanAccount c P n
  | deposit k a _ ih => exact ih.deposit k a
  | withdraw k a _ ih => exact ih.withdraw k a
  | transfer k k' a _ ih => exact ih.transfer k k' a
  | processMonthlyInterest _ ih => exact ih.processMonthlyInterest
  | closeAccount k _ ih => exact ih.closeAccount k

/-- In a state that satisfies the invariant, the three identifiers the next
opening can return are not in the account table. -/
theorem Bank.IdsOK.fresh {s : Bank ℚ} (h : s.IdsOK) :
    s.findAccount ("SAV" ++ toString (s.nextAccountId + 1)) = none ∧
    s.findAccount ("CHK" ++ toString (s.nextAccountId + 1)) = none ∧
    s.findAccount ("LOAN" ++ toString (s.nextAccountId + 1)) = none := by
  have hn : 0 ≤ s.nextAccountId + 1 := by have := h.1; omega
  obtain ⟨e1, e2, e3⟩ := idNumber_generated _ hn
  have key : ∀ k, (idNumber k : Int) = s.nextAccountId + 1 → s.findAccount k = none := by
    intro k hk
    rw [Bank.findAccount, mapFind_eq_none_iff]
    intro hmem
    have := h.2.1 k hmem
    omega
  exact ⟨key _ e1, key _ e2, key _ e3⟩

/-- What `registerAccount` does with an identifier that is not in the table,
for a registered customer. -/
theorem Bank.registerAccount_spec (s : Bank ℚ) (customerId accountId : String) (c : Customer)
    (account : Account ℚ) (seedAmount : ℚ) (desc : String)
    (hc : s.findCustomer customerId = some c) (hfresh : s.findAccount accountId = none) :
    (s.registerAccount customerId accountId account seedAmount desc).accounts.length =
      s.accounts.length + 1 ∧
    (s.registerAccount customerId accountId account seedAmount desc).findAccount accountId =
      some (account.addTransaction (s.seedRecord accountId seedAmount desc)) ∧
    (s.registerAccount customerId accountId account seedAmount desc).findCustomer customerId =
      some (c.addAccount accountId) ∧
    (s.registerAccount customerId accountId account seedAmount desc).allTransactions =
      s.allTransactions ++ [s.seedRecord accountId seedAmount desc] ∧
    (s.registerAccount customerId accountId account seedAmount desc).nextTransactionId =
      s.nextTransactionId + 1 ∧
    (∀ k, k ≠ accountId →
      (s.registerAccount customerId accountId account seedAmount desc).findAccount k =
        s.findAccount k) := by
  have hnot : accountId ∉ mapKeys s.accounts := (mapFind_eq_none_iff _ _).mp hfresh
  simp only [Bank.findCustomer] at hc
  refine ⟨?_, ?_, ?_, rfl, rfl, ?_⟩
  · simp only [Bank.registerAccount, Bank.makeTransaction, Bank.modifyAccount,
      Bank.pushTransaction, length_mapModify]
    simpa using (mapInsert_perm s.accounts accountId account hnot).length_eq
  · simp [Bank.registerAccount, Bank.makeTransaction, Bank.modifyAccount,
      Bank.pushTransaction, Bank.findAccount, Bank.seedRecord, mapFind_mapModify_self,
      mapFind_mapInsert_self]
  · simp [Bank.registerAccount, Bank.makeTransaction, Bank.modifyAccount,
      Bank.pushTransaction, Bank.findCustomer, mapFind_mapModify_self, hc]
  · intro k hk
    simp [Bank.registerAccount, Bank.makeTransaction, Bank.modifyAccount,
      Bank.pushTransaction, Bank.findAccount,
      mapFind_mapModify_of_ne _ _ _ _ (Ne.symm hk),
      mapFind_mapInsert_of_ne _ _ _ _ (Ne.symm hk)]

/-- What the three account-opening members do for a registered customer in a
state that satisfies the invariant on identifiers. -/
theorem Bank.IdsOK.opened {s : Bank ℚ} (h : s.IdsOK) (customerId : String) (c : Customer)
    (hc : s.findCustomer customerId = some c) :
    (∀ x, Bank.Opened s (s.createSavingsAccount customerId x).1 customerId c
      ("SAV" ++ toString (s.nextAccountId + 1)) .SAVINGS x
      (s.seedRecord ("SAV" ++ toString (s.nextAccountId + 1)) x "Initial deposit")) ∧
    (∀ x, Bank.Opened s (s.createCheckingAccount customerId x).1 customerId c
      ("CHK" ++ toString (s.nextAccountId + 1)) .CHECKING x
      (s.seedRecord ("CHK" ++ toString (s.nextAccountId + 1)) x "Initial deposit")) ∧
    (∀ P n, Bank.Opened s (s.createLoanAccount customerId P n).1 customerId c
      ("LOAN" ++ toString (s.nextAccountId + 1)) .LOAN (-P)
      (s.seedRecord ("LOAN" ++ toString (s.nextAccountId + 1)) P "Loan disbursement")) := by
  obtain ⟨f1, f2, f3⟩ := h.fresh
  have frame : ∀ (s' : Bank ℚ) (id : String), s.findAccount id = none →
      (∀ k, k ≠ id → s'.findAccount k = s.findAccount k) →
      ∀ k A, s.findAccount k = some A → s'.findAccount k = some A := by
    intro s' id hid hfr k A hk
    have hne : k ≠ id := by
      rintro rfl
      rw [hid] at hk
      cases hk
    rw [hfr k hne, hk]
  refine ⟨?_, ?_, ?_⟩
  · intro x
    obtain ⟨hl, ha, hcu, hg, hn, hfr⟩ :=
      Bank.registerAccount_spec { s with nextAccountId := s.nextAccountId + 1 } customerId
        ("SAV" ++ toString (s.nextAccountId + 1)) c
        (SavingsAccount.new (R := ℚ) ("SAV" ++ toString (s.nextAccountId + 1)) customerId x) x
        "Initial deposit" hc f1
    unfold Bank.createSavingsAccount
    rw [hc]
    exact ⟨f1, hl, ⟨_, ha, rfl, rfl, rfl, rfl, rfl, rfl⟩, hcu, hg, hn, frame _ _ f1 hfr⟩
  · intro x
    obtain ⟨hl, ha, hcu, hg, hn, hfr⟩ :=
      Bank.registerAccount_spec { s with nextAccountId := s.nextAccountId + 1 } customerId
        ("CHK" ++ toString (s.nextAccountId + 1)) c
        (CheckingAccount.new (R := ℚ) ("CHK" ++ toString (s.nextAccountId + 1)) customerId x) x
        "Initial deposit" hc f2
    unfold Bank.createCheckingAccount
    rw [hc]
    exact ⟨f2, hl, ⟨_, ha, rfl, rfl, rfl, rfl, rfl, rfl⟩, hcu, hg, hn, frame _ _ f2 hfr⟩
  · intro P n
    obtain ⟨hl, ha, hcu, hg, hn, hfr⟩ :=
      Bank.registerAccount_spec { s with nextAccountId := s.nextAccountId + 1 } customerId
        ("LOAN" ++ toString (s.nextAccountId + 1)) c
        (LoanAccount.new (R := ℚ) ("LOAN" ++ toString (s.nextAccountId + 1)) customerId P n) P
        "Loan disbursement" hc f3
    unfold Bank.createLoanAccount
    rw [hc]
    exact ⟨f3, hl, ⟨_, ha, rfl, rfl, rfl, rfl, rfl, rfl⟩, hcu, hg, hn, frame _ _ f3 hfr⟩

/-! ## The ledger invariant -/

theorem mem_mapModify {α : Type} (m : List (String × α)) (k : String) (f : α → α)
    (p : String × α) (hp : p ∈ mapModify m k f) :
    p ∈ m ∨ ∃ a, mapFind m k = some a ∧ p = (k, f a) := by
  induction m with
  | nil => simp [mapModify] at hp
  | cons q rest ih =>
    obtain ⟨k', v⟩ := q
    by_cases h : k' = k
    · subst h
      simp only [mapModify, if_true, List.mem_cons] at hp
      rcases hp with rfl | hp
      · exact Or.inr ⟨v, by simp [mapFind], rfl⟩
      · exact Or.inl (List.mem_cons_of_mem _ hp)
    · simp only [mapModify, h, if_false, List.mem_cons] at hp
      rcases hp with rfl | hp
      · exact Or.inl (List.mem_cons_self _ _)
      · rcases ih hp with h1 | ⟨a, ha, rfl⟩
        · exact Or.inl (List.mem_cons_of_mem _ h1)
        · exact Or.inr ⟨a, by simpa [mapFind, h] using ha, rfl⟩

theorem mem_mapInsert {α : Type} (m : List (String × α)) (k : String) (v : α)
    (p : String × α) (hp : p ∈ mapInsert m k v) : p = (k, v) ∨ p ∈ m := by
  induction m with
  | nil => simpa [mapInsert] using hp
  | cons q rest ih =>
    obtain ⟨k', v'⟩ := q
    unfold mapInsert at hp
    by_cases h1 : k < k'
    · simp only [h1, if_true, List.mem_cons] at hp
      rcases hp with rfl | hp
      · exact Or.inl rfl
      · exact Or.inr (List.mem_cons.mpr hp)
    · by_cases h2 : k = k'
      · subst h2
        simp only [h1, if_false, if_true, List.mem_cons] at hp
        rcases hp with hp | hp
        · exact Or.inl hp
        · exact Or.inr (List.mem_cons_of_mem _ hp)
      · simp only [h1, if_false, h2, List.mem_cons] at hp
        rcases hp with rfl | hp
        · exact Or.inr (List.mem_cons_self _ _)
        · rcases ih hp with h3 | h3
          · exact Or.inl h3
          · exact Or.inr (List.mem_cons_of_mem _ h3)

theorem LogOK.weaken {k : String} {l g g' : List (Transaction ℚ)} (h : LogOK k l g)
    (hg : ∀ t ∈ g, t ∈ g') : LogOK k l g' :=
  ⟨fun t ht => ⟨hg t (h.1 t ht).1, (h.1 t ht).2⟩, h.2⟩

theorem LogOK.append {k : String} {l g : List (Transaction ℚ)} (h : LogOK k l g)
    (x : Transaction ℚ) (hx : x ∈ g) (hk : x.fromAccountId = k ∨ x.toAccountId = k)
    (hord : ∀ t ∈ l, logOrder t x) : LogOK k (l ++ [x]) g := by
  refine ⟨?_, ?_⟩
  · intro t ht
    rcases List.mem_append.mp ht with h1 | h1
    · exact h.1 t h1
    · rw [List.mem_singleton.mp h1]
      exact ⟨hx, hk⟩
  · rw [List.pairwise_append]
    refine ⟨h.2, List.pairwise_singleton _ _, ?_⟩
    intro t ht u hu
    rw [List.mem_singleton.mp hu]
    exact hord t ht

theorem LogsOK.weaken_all {m : List (String × Account ℚ)} {g g' : List (Transaction ℚ)}
    (h : LogsOK m g) (hg : ∀ t ∈ g, t ∈ g') : LogsOK m g' :=
  fun p hp => (h p hp).weaken hg

/-- The entries of the log of a stored account are entries of the global log. -/
theorem LogsOK.log_of_mapFind {m : List (String × Account ℚ)} {g : List (Transaction ℚ)}
    (h : LogsOK m g) {k : String} {a : Account ℚ} (ha : mapFind m k = some a) :
    LogOK k a.transactionHistory g :=
  h (k, a) (Banking.mem_of_mapFind m k a ha)

/-- A mutation that leaves the log of the account as it was keeps the logs
consistent. -/
theorem LogsOK.mapModify_keep {m : List (String × Account ℚ)} {g : List (Transaction ℚ)}
    (h : LogsOK m g) (k : String) (f : Account ℚ → Account ℚ)
    (hf : ∀ a, mapFind m k = some a → (f a).transactionHistory = a.transactionHistory) :
    LogsOK (mapModify m k f) g := by
  intro p hp
  rcases mem_mapModify m k f p hp with h1 | ⟨a, ha, rfl⟩
  · exact h p h1
  · simp only [hf a ha]
    exact h.log_of_mapFind ha

/-- Appending to the log of an account a record of the global log that names
the account, and comes after the entries of the log, keeps the logs consistent. -/
theorem LogsOK.mapModify_file {m : List (String × Account ℚ)} {g : List (Transaction ℚ)}
    (h : LogsOK m g) (k : String) (x : Transaction ℚ) (hx : x ∈ g)
    (hk : x.fromAccountId = k ∨ x.toAccountId = k)
    (hord : ∀ a, mapFind m k = some a → ∀ t ∈ a.transactionHistory, logOrder t x) :
    LogsOK (mapModify m k (fun a => a.addTransaction x)) g := by
  intro p hp
  rcases mem_mapModify m k _ p hp with h1 | ⟨a, ha, rfl⟩
  · exact h p h1
  · exact (h.log_of_mapFind ha).append x hx hk (hord a ha)

/-- Filing one new record, numbered by the incremented counter, keeps the ledger
invariant, for any table whose logs are consistent with the extended global
log. -/
theorem LedgerInv.file {m : List (String × Account ℚ)} {g : List (Transaction ℚ)} {n : Int}
    (h : LedgerInv m g n) (x : Transaction ℚ) (hx : x.transactionId = n + 1)
    (m' : List (String × Account ℚ)) (hm' : LogsOK m' (g ++ [x])) :
    LedgerInv m' (g ++ [x]) (n + 1) := by
  refine ⟨?_, ?_, hm'⟩
  · rw [List.pairwise_append]
    refine ⟨h.1, List.pairwise_singleton _ _, ?_⟩
    intro t ht u hu
    rw [List.mem_singleton.mp hu, hx]
    have := h.2.1 t ht
    omega
  · intro t ht
    rcases List.mem_append.mp ht with h1 | h1
    · have := h.2.1 t h1
      omega
    · rw [List.mem_singleton.mp h1, hx]

/-- The entries of the log of a stored account come before a new record. -/
theorem LedgerInv.logOrder_new {m : List (String × Account ℚ)} {g : List (Transaction ℚ)}
    {n : Int} (h : LedgerInv m g n) (x : Transaction ℚ) (hx : x.transactionId = n + 1)
    {k : String} {a : Account ℚ} (ha : mapFind m k = some a) :
    ∀ t ∈ a.transactionHistory, logOrder t x := by
  intro t ht
  have := h.2.1 t ((h.2.2.log_of_mapFind ha).1 t ht).1
  exact Or.inl (by rw [hx]; omega)

theorem Account.withdraw_transactionHistory (acc : Account ℚ) (a : ℚ) :
    (acc.withdraw a).1.transactionHistory = acc.transactionHistory := by
  by_cases h : (acc.withdraw a).2 = .ok true
  · rw [(Account.withdraw_ok acc a h).2]
  · rw [Account.withdraw_unchanged acc a h]

/-- Replacing the account stored under `k` by an object with the same log and
then filing a new record that names `k` at the end of that log keeps the ledger
invariant. -/
theorem LedgerInv.update_file {m : List (String × Account ℚ)} {g : List (Transaction ℚ)}
    {n : Int}
    (h : LedgerInv m g n) (x : Transaction ℚ) (hx : x.transactionId = n + 1) (k : String)
    (hk : x.fromAccountId = k ∨ x.toAccountId = k) (A c : Account ℚ)
    (hA : mapFind m k = some A) (hc : c.transactionHistory = A.transactionHistory) :
    LedgerInv (mapModify (mapModify m k (fun _ => c)) k (fun a => a.addTransaction x))
      (g ++ [x]) (n + 1) := by
  have h1 : LogsOK (mapModify m k (fun _ => c)) g :=
    h.2.2.mapModify_keep k _ (fun a ha => by
      rw [hA] at ha
      cases ha
      exact hc)
  have hinv1 : LedgerInv (mapModify m k (fun _ => c)) g n := ⟨h.1, h.2.1, h1⟩
  refine h.file x hx _ ?_
  exact (h1.weaken_all (fun t ht => List.mem_append_left _ ht)).mapModify_file k x
    (List.mem_append_right _ (List.mem_singleton_self x)) hk
    (fun a ha => hinv1.logOrder_new x hx ha)

theorem Bank.LedgerOK.ledger_new (name : String) (n : Int) :
    (Bank.new (R := ℚ) name n).LedgerOK := by
  refine ⟨?_, ?_, ?_⟩ <;> simp [Bank.new, LogsOK]

theorem Bank.LedgerOK.ledger_createCustomer {s : Bank ℚ} (h : s.LedgerOK)
    (firstName lastName email phone address : String) :
    (s.createCustomer firstName lastName email phone address).1.LedgerOK := h

theorem Bank.LedgerOK.ledger_registerAccount {s : Bank ℚ} (h : s.LedgerOK)
    (customerId accountId : String) (account : Account ℚ) (seedAmount : ℚ) (desc : String)
    (hempty : account.transactionHistory = []) :
    (Bank.registerAccount { s with nextAccountId := s.nextAccountId + 1 }
      customerId accountId account seedAmount desc).LedgerOK := by
  have hins : LogsOK (mapInsert s.accounts accountId account)
      (s.allTransactions ++ [s.seedRecord accountId seedAmount desc]) := by
    intro p hp
    rcases mem_mapInsert _ _ _ p hp with rfl | h1
    · simp [LogOK, hempty]
    · exact (h.2.2 p h1).weaken (fun t ht => List.mem_append_left _ ht)
  refine LedgerInv.file h (s.seedRecord accountId seedAmount desc) rfl _ ?_
  exact hins.mapModify_file accountId _
    (List.mem_append_right _ (List.mem_singleton_self _)) (Or.inr rfl)
    (fun a ha t ht => by
      rw [mapFind_mapInsert_self] at ha
      cases ha
      rw [hempty] at ht
      cases ht)

theorem Bank.LedgerOK.ledger_createSavingsAccount {s : Bank ℚ} (h : s.LedgerOK)
    (customerId : String)
    (x : ℚ) : (s.createSavingsAccount customerId x).1.LedgerOK := by
  unfold Bank.createSavingsAccount
  split
  · exact h
  · exact h.ledger_registerAccount customerId _ _ x _ rfl

theorem Bank.LedgerOK.ledger_createCheckingAccount {s : Bank ℚ} (h : s.LedgerOK)
    (customerId : String)
    (x : ℚ) : (s.createCheckingAccount customerId x).1.LedgerOK := by
  unfold Bank.createCheckingAccount
  split
  · exact h
  · exact h.ledger_registerAccount customerId _ _ x _ rfl

theorem Bank.LedgerOK.ledger_createLoanAccount {s : Bank ℚ} (h : s.LedgerOK) (customerId : String)
    (P : ℚ) (n : Int) : (s.createLoanAccount customerId P n).1.LedgerOK := by
  unfold Bank.createLoanAccount
  split
  · exact h
  · exact h.ledger_registerAccount customerId _ _ P _ rfl

theorem Bank.LedgerOK.ledger_deposit {s : Bank ℚ} (h : s.LedgerOK) (accountId : String)
    (amount : ℚ) :
    (s.deposit accountId amount).1.LedgerOK := by
  cases hA : s.findAccount accountId with
  | none => rw [Bank.deposit_of_none s accountId amount hA]; exact h
  | some A =>
    by_cases ha : amount ≤ 0
    · rw [Bank.deposit_of_nonpos s accountId amount A hA ha]; exact h
    · unfold Bank.deposit
      rw [hA]
      simp only [Account.deposit_eq, if_neg ha]
      exact LedgerInv.update_file h (s.depositRecord accountId amount) rfl accountId
        (Or.inr rfl) A _ hA rfl

theorem Bank.LedgerOK.ledger_withdraw {s : Bank ℚ} (h : s.LedgerOK) (accountId : String)
    (amount : ℚ) :
    (s.withdraw accountId amount).1.LedgerOK := by
  cases hA : s.findAccount accountId with
  | none => rw [Bank.withdraw_of_none s accountId amount hA]; exact h
  | some A =>
    by_cases hok : (A.withdraw amount).2 = .ok true
    · unfold Bank.withdraw
      rw [hA]
      simp only [hok]
      exact LedgerInv.update_file h (s.withdrawalRecord accountId amount) rfl accountId
        (Or.inl rfl) A _ hA (Account.withdraw_transactionHistory A amount)
    · rw [Bank.withdraw_of_failed s accountId amount A hA hok]; exact h

theorem Bank.LedgerOK.ledger_closeAccount {s : Bank ℚ} (h : s.LedgerOK) (accountId : String) :
    (s.closeAccount accountId).LedgerOK :=
  ⟨h.1, h.2.1, h.2.2.mapModify_keep accountId _ (fun _ _ => rfl)⟩

theorem Bank.LedgerOK.ledger_processMonthlyInterest {s : Bank ℚ} (h : s.LedgerOK)
    (hids : ∀ p ∈ s.accounts, p.2.accountId = p.1) : s.processMonthlyInterest.LedgerOK := by
  obtain ⟨f1, -, f3, f4⟩ := processInterestEntries_filed s.accounts s.nextTransactionId
  show LedgerInv (processInterestEntries s.accounts s.nextTransactionId).1
    (s.allTransactions ++ (processInterestEntries s.accounts s.nextTransactionId).2.1)
    (processInterestEntries s.accounts s.nextTransactionId).2.2
  refine ⟨?_, ?_, ?_⟩
  · rw [List.pairwise_append]
    refine ⟨h.1, f4, ?_⟩
    intro t ht u hu
    have h1 := h.2.1 t ht
    have h2 := (f3 u hu).2.2.2.2.1
    omega
  · intro t ht
    rcases List.mem_append.mp ht with h1 | h1
    · have h2 := h.2.1 t h1
      have : (0 : Int) ≤
          ((processInterestEntries s.accounts s.nextTransactionId).2.1.length : Int) :=
        Int.natCast_nonneg _
      omega
    · exact (f3 t h1).2.2.2.2.2
  · rintro ⟨k, a⟩ hp
    obtain ⟨A, hA, hcase⟩ :=
      processInterestEntries_mem s.accounts s.nextTransactionId (k, a) hp
    have hlog : LogOK k A.transactionHistory
        (s.allTransactions ++ (processInterestEntries s.accounts s.nextTransactionId).2.1) :=
      (h.2.2 (k, A) hA).weaken (fun t ht => List.mem_append_left _ ht)
    rcases hcase with h1 | ⟨t, htm, hto, hlt, h2⟩
    · simp only at h1
      subst h1
      exact hlog
    · simp only at h2
      subst h2
      have hk : A.accountId = k := hids (k, A) hA
      simp only [Account.addTransaction, (Account.calculateInterest_fields A).2.1]
      refine hlog.append t (List.mem_append_right _ htm) (Or.inr (by rw [hto, hk])) ?_
      intro u hu
      have := h.2.1 u ((h.2.2 (k, A) hA).1 u hu).1
      exact Or.inl (by omega)

theorem Bank.LedgerOK.ledger_transfer {s : Bank ℚ} (h : s.LedgerOK) (src dst : String)
    (amount : ℚ) :
    (s.transfer src dst amount).1.LedgerOK := by
  cases hA : s.findAccount src with
  | none => rw [Bank.transfer_of_none s src dst amount (Or.inl hA)]; exact h
  | some A =>
    cases hB : s.findAccount dst with
    | none => rw [Bank.transfer_of_none s src dst amount (Or.inr hB)]; exact h
    | some B =>
      by_cases hok : (A.withdraw amount).2 = .ok true
      · have hpos := (Account.withdraw_ok A amount hok).1
        have hx : (s.transferRecord src dst amount).transactionId =
            s.nextTransactionId + 1 := rfl
        have hin : s.transferRecord src dst amount ∈
            s.allTransactions ++ [s.transferRecord src dst amount] :=
          List.mem_append_right _ (List.mem_singleton_self _)
        -- the table after the withdrawal on the source
        have h1 : LogsOK (mapModify s.accounts src (fun _ => (A.withdraw amount).1))
            s.allTransactions :=
          h.2.2.mapModify_keep src _ (fun a ha => by
            have hA' : mapFind s.accounts src = some A := hA
            rw [hA'] at ha
            cases ha
            exact Account.withdraw_transactionHistory _ amount)
        have f1 : mapFind (mapModify s.accounts src (fun _ => (A.withdraw amount).1)) src =
            some (A.withdraw amount).1 := by
          have hA' : mapFind s.accounts src = some A := hA
          rw [mapFind_mapModify_self, hA']
          rfl
        unfold Bank.transfer
        rw [hA, hB]
        simp only [hok, Account.deposit_eq, if_neg (not_le.mpr hpos)]
        refine LedgerInv.file h (s.transferRecord src dst amount) rfl _ ?_
        simp only [Bank.modifyAccount, Bank.makeTransaction]
        -- the table after the deposit on the destination
        have h2 : LogsOK (mapModify
            (mapModify s.accounts src (fun _ => (A.withdraw amount).1)) dst
            (fun _ => ({ (if dst = src then (A.withdraw amount).1 else B) with
              balance := (if dst = src then (A.withdraw amount).1 else B).balance + amount }
              : Account ℚ))) s.allTransactions := by
          refine h1.mapModify_keep dst _ (fun a ha => ?_)
          by_cases hsd : dst = src
          · subst hsd
            rw [f1] at ha
            cases ha
            simp
          · have hB' : mapFind s.accounts dst = some B := hB
            rw [mapFind_mapModify_of_ne _ _ _ _ (Ne.symm hsd), hB'] at ha
            cases ha
            simp [hsd]
        have hinv2 : LedgerInv _ s.allTransactions s.nextTransactionId := ⟨h.1, h.2.1, h2⟩
        -- the record on the log of the source
        have h3 := (h2.weaken_all (fun t ht => List.mem_append_left
            [s.transferRecord src dst amount] ht)).mapModify_file src
          (s.transferRecord src dst amount) hin (Or.inl rfl)
          (fun a ha => hinv2.logOrder_new _ hx ha)
        -- the record on the log of the destination
        refine h3.mapModify_file dst (s.transferRecord src dst amount) hin (Or.inr rfl) ?_
        intro a ha t ht
        by_cases hsd : dst = src
        · subst hsd
          rw [mapFind_mapModify_self] at ha
          cases ha0 : mapFind (mapModify
              (mapModify s.accounts dst (fun _ => (A.withdraw amount).1)) dst
              (fun _ => ({ (if dst = dst then (A.withdraw amount).1 else B) with
                balance := (if dst = dst then (A.withdraw amount).1 else B).balance + amount }
                : Account ℚ))) dst with
          | none =>
            rw [ha0] at ha
            cases ha
          | some a0 =>
            rw [ha0] at ha
            simp only [Option.map_some', Option.some.injEq] at ha
            subst ha
            simp only [Account.addTransaction, List.mem_append, List.mem_singleton] at ht
            rcases ht with ht | ht
            · exact hinv2.logOrder_new _ hx ha0 t ht
            · subst ht
              exact Or.inr ⟨rfl, rfl, rfl⟩
        · rw [mapFind_mapModify_of_ne _ _ _ _ (Ne.symm hsd)] at ha
          exact hinv2.logOrder_new _ hx ha t ht
      · rw [Bank.transfer_of_withdraw_failed s src dst amount A B hA hB hok]; exact h

/-- Every reachable bank state satisfies the ledger invariant. -/
theorem Bank.Reachable.ledgerOK {s : Bank ℚ} (h : s.Reachable) : s.LedgerOK := by
  induction h with
  | new name n => exact Bank.LedgerOK.ledger_new name n
  | createCustomer f l e p a _ ih => exact ih.ledger_createCustomer f l e p a
  | createSavingsAccount c x _ ih => exact ih.ledger_createSavingsAccount c x
  | createCheckingAccount c x _ ih => exact ih.ledger_createCheckingAccount c x
  | createLoanAccount c P n _ ih => exact ih.ledger_createLoanAccount c P n
  | deposit k a _ ih => exact ih.ledger_deposit k a
  | withdraw k a _ ih => exact ih.ledger_withdraw k a
  | transfer k k' a _ ih => exact ih.ledger_transfer k k' a
  | processMonthlyInterest hr ih => exact ih.ledger_processMonthlyInterest hr.idsOK.2.2.2
  | closeAccount k _ ih => exact ih.ledger_closeAccount k

/-- The account-opening members file their seed record in the global log when
the customer is registered. -/
theorem Bank.create_log_of_some (self : Bank ℚ) (customerId : String) (c : Customer)
    (h : self.findCustomer customerId = some c) :
    (∀ x, (self.createSavingsAccount customerId x).1.allTransactions =
      self.allTransactions ++
        [self.seedRecord ("SAV" ++ toString (self.nextAccountId + 1)) x "Initial deposit"]) ∧
    (∀ x, (self.createCheckingAccount customerId x).1.allTransactions =
      self.allTransactions ++
        [self.seedRecord ("CHK" ++ toString (self.nextAccountId + 1)) x "Initial deposit"]) ∧
    (∀ P n, (self.createLoanAccount customerId P n).1.allTransactions =
      self.allTransactions ++
        [self.seedRecord ("LOAN" ++ toString (self.nextAccountId + 1)) P
          "Loan disbursement"]) := by
  refine ⟨?_, ?_, ?_⟩
  · intro x; unfold Bank.createSavingsAccount; rw [h]; rfl
  · intro x; unfold Bank.createCheckingAccount; rw [h]; rfl
  · intro P n; unfold Bank.createLoanAccount; rw [h]; rfl

/-- The sample state is the one reached from a fresh bank by registering a
customer and opening a savings and a checking account with 100 each. -/
theorem sampleBank_eq_opened :
    sampleBank =
      ((((Bank.new (R := ℚ) "Sample" 0).createCustomer "Ada" "Byron" "" "" "").1.createSavingsAccount
        "CUST1001" 100).1.createCheckingAccount "CUST1001" 100).1 := by
  have e1 : "CUST" ++ toString (1001 : Int) = "CUST1001" := by decide
  have e2 : "SAV" ++ toString (10001 : Int) = "SAV10001" := by decide
  have e3 : "CHK" ++ toString (10002 : Int) = "CHK10002" := by decide
  have l1 : "CHK10002" < "SAV10001" := by rw [String.lt_iff_toList_lt]; decide
  simp [Bank.new, Bank.createCustomer, Bank.createSavingsAccount, Bank.createCheckingAccount,
    Bank.findCustomer, mapFind, mapInsert, mapModify, e1, e2, e3, l1, Bank.registerAccount,
    Customer.new, Customer.addAccount, SavingsAccount.new, CheckingAccount.new,
    Bank.makeTransaction, Bank.modifyAccount, Bank.pushTransaction, Account.addTransaction,
    sampleBank, sampleSavings, sampleChecking]

/-- The sample state is reachable. -/
theorem sampleBank_reachable : sampleBank.Reachable := by
  rw [sampleBank_eq_opened]
  exact .createCheckingAccount _ _ (.createSavingsAccount _ _
    (.createCustomer _ _ _ _ _ (.new _ _)))

theorem sampleBank_findCustomer : sampleBank.findCustomer "CUST1001" = some sampleCustomer := by
  simp [Bank.findCustomer, sampleBank, sampleCustomer, mapFind]

/-! ## Bank-level claims -/

/-- C2. For every bank state, existing accounts A and B and every amount, if the
withdrawal on the source A does not return `true` (it raises InvalidAmount or
InsufficientFunds, or A is a Loan account and it returns `false`), then
`transfer(A, B, amount)` ends with the outcome of that withdrawal and leaves the
whole bank state as it was: in particular both account objects (balance and
log), the global log and the transaction counter. -/
theorem transfer_failed_withdraw_no_effect (self : Bank ℚ) (src dst : String) (amount : ℚ)
    (A B : Account ℚ)
    (hA : self.findAccount src = some A) (hB : self.findAccount dst = some B)
    (hw : (A.withdraw amount).2 ≠ .ok true) :
    (self.transfer src dst amount).2 = (A.withdraw amount).2.map (fun _ => ()) ∧
    (self.transfer src dst amount).1 = self ∧
    (self.transfer src dst amount).1.balanceOf src = some A.balance ∧
    (self.transfer src dst amount).1.balanceOf dst = some B.balance ∧
    (self.transfer src dst amount).1.historyOf src = some A.transactionHistory ∧
    (self.transfer src dst amount).1.historyOf dst = some B.transactionHistory ∧
    (self.transfer src dst amount).1.allTransactions = self.allTransactions ∧
    (self.transfer src dst amount).1.nextTransactionId = self.nextTransactionId := by
  rw [Bank.transfer_of_withdraw_failed self src dst amount A B hA hB hw]
  simp [Bank.balanceOf, Bank.historyOf, hA, hB, Account.getBalance]

/-- C2, scenario: in `sampleBank` the Savings account holds the minimum, 100;
transferring 50 from it to the Checking account fails with InsufficientFunds,
the bank state is unchanged and the Checking balance is still 100. -/
theorem transfer_failed_withdraw_no_effect_witness :
    sampleBank.balanceOf "SAV10001" = some 100 ∧
    (sampleBank.transfer "SAV10001" "CHK10002" 50).2 = .error .InsufficientFunds ∧
    (sampleBank.transfer "SAV10001" "CHK10002" 50).1 = sampleBank ∧
    (sampleBank.transfer "SAV10001" "CHK10002" 50).1.balanceOf "CHK10002" = some 100 := by
  have hA : sampleBank.findAccount "SAV10001" = some sampleSavings := by
    simp [Bank.findAccount, sampleBank, mapFind]
  have hB : sampleBank.findAccount "CHK10002" = some sampleChecking := by
    simp [Bank.findAccount, sampleBank, mapFind]
  have hw : (sampleSavings.withdraw 50).2 = .error .InsufficientFunds := by
    norm_num [Account.withdraw, sampleSavings, SavingsAccount.withdraw,
      SavingsAccount.minimumBalance]
  obtain ⟨hr, hs, -, hb, -⟩ :=
    transfer_failed_withdraw_no_effect sampleBank "SAV10001" "CHK10002" 50
      sampleSavings sampleChecking hA hB (by rw [hw]; simp)
  refine ⟨?_, ?_, hs, ?_⟩
  · rw [Bank.balanceOf, hA]; rfl
  · rw [hr, hw]; rfl
  · rw [hb]; rfl

/-! ## Account-level claims -/

/-- C7. On a Loan account, for every amount, `withdraw` returns `false` without
raising and leaves the account, its balance included, as it was. -/
theorem loan_withdraw_returns_false (acc : Account ℚ) (a : ℚ)
    (hl : acc.getAccountType = .LOAN) :
    acc.withdraw a = (acc, .ok false) ∧ (acc.withdraw a).1.balance = acc.balance := by
  obtain ⟨P, n, m, hc⟩ := Account.getAccountType_loan hl
  simp [Account.withdraw, hc, LoanAccount.withdraw]

/-- C7, at concrete inputs: a Loan opened with principal 1200 over 12 months
answers `false` to a withdrawal of 100 and to one of -5, the balance staying at
-1200. -/
theorem loan_withdraw_returns_false_witness :
    ((LoanAccount.new (R := ℚ) "LOAN10003" "CUST1001" 1200 12).withdraw 100).2 = .ok false ∧
    ((LoanAccount.new (R := ℚ) "LOAN10003" "CUST1001" 1200 12).withdraw 100).1.balance = -1200 ∧
    ((LoanAccount.new (R := ℚ) "LOAN10003" "CUST1001" 1200 12).withdraw (-5)).2 = .ok false := by
  have h1 := loan_withdraw_returns_false (LoanAccount.new (R := ℚ) "LOAN10003" "CUST1001" 1200 12)
    100 rfl
  have h2 := loan_withdraw_returns_false (LoanAccount.new (R := ℚ) "LOAN10003" "CUST1001" 1200 12)
    (-5) rfl
  refine ⟨by rw [h1.1], ?_, by rw [h2.1]⟩
  rw [h1.2]
  simp [LoanAccount.new]

/-- C8. For every account of any class, every balance and every amount `≤ 0`,
`deposit` raises InvalidAmount and leaves the account, its balance included, as
it was. -/
theorem deposit_nonpositive_invalid (acc : Account ℚ) (a : ℚ) (ha : a ≤ 0) :
    acc.deposit a = (acc, .error .InvalidAmount) ∧
    (acc.deposit a).1.balance = acc.balance := by
  simp [Account.deposit_eq, ha]

/-- C8, at concrete inputs: depositing 0 into a Savings account, -20 into a
Checking account and 0 into a Loan account raises InvalidAmount. -/
theorem deposit_nonpositive_invalid_witness :
    ((SavingsAccount.new (R := ℚ) "SAV10001" "CUST1001" 1000).deposit 0).2 =
      .error .InvalidAmount ∧
    ((CheckingAccount.new (R := ℚ) "CHK10002" "CUST1001" 100).deposit (-20)).2 =
      .error .InvalidAmount ∧
    ((LoanAccount.new (R := ℚ) "LOAN10003" "CUST1001" 1200 12).deposit 0).2 =
      .error .InvalidAmount := by
  refine ⟨?_, ?_, ?_⟩
  · rw [(deposit_nonpositive_invalid (SavingsAccount.new (R := ℚ) "SAV10001" "CUST1001" 1000) 0
      le_rfl).1]
  · rw [(deposit_nonpositive_invalid (CheckingAccount.new (R := ℚ) "CHK10002" "CUST1001" 100) (-20)
      (by norm_num)).1]
  · rw [(deposit_nonpositive_invalid (LoanAccount.new (R := ℚ) "LOAN10003" "CUST1001" 1200 12) 0
      le_rfl).1]

/-- C9, as stated, fails for the Loan class: `withdraw(0)` on a Loan account
raises nothing; it returns `false`. -/
theorem loan_withdraw_nonpositive_counterexample :
    (LoanAccount.new (R := ℚ) "LOAN10003" "CUST1001" 1200 12).getAccountType = .LOAN ∧
    (0 : ℚ) ≤ 0 ∧
    ((LoanAccount.new (R := ℚ) "LOAN10003" "CUST1001" 1200 12).withdraw 0).2 = .ok false ∧
    ((LoanAccount.new (R := ℚ) "LOAN10003" "CUST1001" 1200 12).withdraw 0).2 ≠
      .error .InvalidAmount := by
  refine ⟨rfl, le_rfl, ?_, ?_⟩ <;>
    simp [Account.withdraw, LoanAccount.new, LoanAccount.withdraw]

/-- C9, amended. For every amount `≤ 0`, `withdraw` on a Savings or a Checking
account raises InvalidAmount, on a Loan account returns `false` without raising,
and in the three classes leaves the account, its balance included, as it was. -/
theorem withdraw_nonpositive (acc : Account ℚ) (a : ℚ) (ha : a ≤ 0) :
    (acc.getAccountType ≠ .LOAN → acc.withdraw a = (acc, .error .InvalidAmount)) ∧
    (acc.getAccountType = .LOAN → acc.withdraw a = (acc, .ok false)) ∧
    (acc.withdraw a).1.balance = acc.balance := by
  cases hc : acc.cls <;>
    simp [Account.withdraw, Account.getAccountType, hc, SavingsAccount.withdraw,
      CheckingAccount.withdraw, LoanAccount.withdraw, ha]

/-- C9, amended, at concrete inputs: withdrawing 0 from a Savings account and
-20 from a Checking account raises InvalidAmount; withdrawing 0 from a Loan
account returns `false`. -/
theorem withdraw_nonpositive_witness :
    (SavingsAccount.new (R := ℚ) "SAV10001" "CUST1001" 1000).withdraw 0 =
      (SavingsAccount.new (R := ℚ) "SAV10001" "CUST1001" 1000, .error .InvalidAmount) ∧
    (CheckingAccount.new (R := ℚ) "CHK10002" "CUST1001" 100).withdraw (-20) =
      (CheckingAccount.new (R := ℚ) "CHK10002" "CUST1001" 100, .error .InvalidAmount) ∧
    (LoanAccount.new (R := ℚ) "LOAN10003" "CUST1001" 1200 12).withdraw 0 =
      (LoanAccount.new (R := ℚ) "LOAN10003" "CUST1001" 1200 12, .ok false) :=
  ⟨(withdraw_nonpositive (SavingsAccount.new (R := ℚ) "SAV10001" "CUST1001" 1000) 0 le_rfl).1
      (by simp [Account.getAccountType, SavingsAccount.new]),
   (withdraw_nonpositive (CheckingAccount.new (R := ℚ) "CHK10002" "CUST1001" 100) (-20)
      (by norm_num)).1 (by simp [Account.getAccountType, CheckingAccount.new]),
   (withdraw_nonpositive (LoanAccount.new (R := ℚ) "LOAN10003" "CUST1001" 1200 12) 0 le_rfl).2.1
      rfl⟩

/-- C11. In exact arithmetic, `calculateInterest` takes the balance `b` of a
Savings account to `b * (1 + 0.035/12)`, whatever `b`; on a Checking account it
takes `b` to `b * (1 + 0.001/12)` when `b > 0` and leaves the account as it was
when `b ≤ 0`. -/
theorem accrue_interest_savings_checking (acc : Account ℚ) :
    (acc.getAccountType = .SAVINGS →
      acc.calculateInterest.balance = acc.balance * (1 + (35 / 1000) / 12)) ∧
    (acc.getAccountType = .CHECKING → 0 < acc.balance →
      acc.calculateInterest.balance = acc.balance * (1 + (1 / 1000) / 12)) ∧
    (acc.getAccountType = .CHECKING → acc.balance ≤ 0 →
      acc.calculateInterest = acc) := by
  refine ⟨?_, ?_, ?_⟩
  · intro hs
    have hc := Account.getAccountType_savings hs
    simp only [Account.calculateInterest, hc, SavingsAccount.calculateInterest,
      SavingsAccount.interestRate]
    ring
  · intro hk hpos
    have hc := Account.getAccountType_checking hk
    simp only [Account.calculateInterest, hc, CheckingAccount.calculateInterest,
      gt_iff_lt, if_pos hpos]
    ring
  · intro hk hle
    have hc := Account.getAccountType_checking hk
    simp only [Account.calculateInterest, hc, CheckingAccount.calculateInterest,
      gt_iff_lt, if_neg (not_lt.mpr hle)]

/-- C11, at concrete inputs: a month of interest takes a Savings account from
1200 to 1203.50, a Checking account from 1200 to 1200.10, and leaves a Checking
account at -50 where it is. -/
theorem accrue_interest_savings_checking_witness :
    (SavingsAccount.new (R := ℚ) "SAV10001" "CUST1001" 1200).calculateInterest.balance = 2407 / 2 ∧
    (CheckingAccount.new (R := ℚ) "CHK10002" "CUST1001" 1200).calculateInterest.balance =
      12001 / 10 ∧
    (CheckingAccount.new (R := ℚ) "CHK10002" "CUST1001" (-50)).calculateInterest.balance = -50 := by
  refine ⟨?_, ?_, ?_⟩
  · rw [(accrue_interest_savings_checking (SavingsAccount.new (R := ℚ) "SAV10001" "CUST1001" 1200)).1
      rfl]
    norm_num [SavingsAccount.new]
  · rw [(accrue_interest_savings_checking
      (CheckingAccount.new (R := ℚ) "CHK10002" "CUST1001" 1200)).2.1 rfl
      (by norm_num [CheckingAccount.new])]
    norm_num [CheckingAccount.new]
  · rw [(accrue_interest_savings_checking
      (CheckingAccount.new (R := ℚ) "CHK10002" "CUST1001" (-50))).2.2 rfl
      (by norm_num [CheckingAccount.new])]
    rfl

/-- C12, as stated, fails for a Loan account whose balance is positive: a loan of
100 that has received a payment of 200 stands at 100, and a month of interest
takes it to 100 - 100 * 0.065/12 = 2387/24, below 100, not to
100 * (1 + 0.065/12). -/
theorem loan_interest_magnitude_counterexample :
    ((LoanAccount.new (R := ℚ) "LOAN10003" "CUST1001" 100 12).deposit 200).1.getAccountType = .LOAN ∧
    ((LoanAccount.new (R := ℚ) "LOAN10003" "CUST1001" 100 12).deposit 200).1.balance = 100 ∧
    ((LoanAccount.new (R := ℚ) "LOAN10003" "CUST1001" 100 12).deposit 200).1.calculateInterest.balance
      = 2387 / 24 ∧
    ¬ |((LoanAccount.new (R := ℚ) "LOAN10003" "CUST1001" 100 12).deposit 200).1.calculateInterest.balance|
      = |((LoanAccount.new (R := ℚ) "LOAN10003" "CUST1001" 100 12).deposit 200).1.balance| *
          (1 + (65 / 1000) / 12) := by
  have hd : ((LoanAccount.new (R := ℚ) "LOAN10003" "CUST1001" 100 12).deposit 200).1 =
      { LoanAccount.new (R := ℚ) "LOAN10003" "CUST1001" 100 12 with balance := 100 } := by
    rw [Account.deposit_eq, if_neg (by norm_num)]
    simp only [LoanAccount.new]
    norm_num
  have hb : ({ LoanAccount.new (R := ℚ) "LOAN10003" "CUST1001" 100 12 with balance := 100 } :
      Account ℚ).calculateInterest.balance = 2387 / 24 := by
    simp only [Account.calculateInterest, LoanAccount.new, LoanAccount.calculateInterest,
      LoanAccount.loanRate_exact, CMath.abs_exact]
    norm_num [abs_of_pos]
  rw [hd]
  refine ⟨rfl, rfl, hb, ?_⟩
  rw [hb]
  norm_num [abs_of_pos]

/-- C12, amended. In exact arithmetic, `calculateInterest` takes the balance `b`
of a Loan account to `b - |b| * 0.065/12`; when `b ≤ 0`, that is, while there is
a debt, the balance becomes `b * (1 + 0.065/12)` and its absolute value is
`|b| * (1 + 0.065/12)`. -/
theorem loan_interest_magnitude (acc : Account ℚ) (hl : acc.getAccountType = .LOAN) :
    acc.calculateInterest.balance = acc.balance - |acc.balance| * (65 / 1000) / 12 ∧
    (acc.balance ≤ 0 →
      acc.calculateInterest.balance = acc.balance * (1 + (65 / 1000) / 12) ∧
      |acc.calculateInterest.balance| = |acc.balance| * (1 + (65 / 1000) / 12)) := by
  obtain ⟨P, n, m, hc⟩ := Account.getAccountType_loan hl
  have hb : acc.calculateInterest.balance =
      acc.balance - |acc.balance| * (65 / 1000) / 12 := by
    simp only [Account.calculateInterest, hc, LoanAccount.calculateInterest,
      LoanAccount.loanRate_exact, CMath.abs_exact]
  refine ⟨hb, ?_⟩
  intro hle
  have h1 : acc.calculateInterest.balance = acc.balance * (1 + (65 / 1000) / 12) := by
    rw [hb, abs_of_nonpos hle]
    ring
  refine ⟨h1, ?_⟩
  rw [h1, abs_mul, abs_of_pos (by norm_num : (0 : ℚ) < 1 + (65 / 1000) / 12)]

/-- C12, amended, at a concrete input: a Loan opened with principal 1200 owes
1206.50 after a month of interest. -/
theorem loan_interest_magnitude_witness :
    (LoanAccount.new (R := ℚ) "LOAN10003" "CUST1001" 1200 12).calculateInterest.balance = -(2413 / 2) ∧
    |(LoanAccount.new (R := ℚ) "LOAN10003" "CUST1001" 1200 12).calculateInterest.balance| =
      2413 / 2 := by
  obtain ⟨-, h⟩ := loan_interest_magnitude (LoanAccount.new (R := ℚ) "LOAN10003" "CUST1001" 1200 12) rfl
  obtain ⟨h1, h2⟩ := h (by norm_num [LoanAccount.new])
  refine ⟨?_, ?_⟩
  · rw [h1]
    norm_num [LoanAccount.new]
  · rw [h2]
    norm_num [LoanAccount.new]

/-! ## Validation failures -/

/-- C14. Whenever a Bank operation reports a failure (`deposit`, `withdraw`,
`transfer`, or the opening of a Savings, Checking or Loan account ends with an
exception) the whole bank state, with every balance, every account log, the
global log, the customer registry and the three counters, is exactly as it
was; and a `deposit` or a `withdraw` of a non-positive amount leaves the state
as it was in every case. -/
theorem failure_leaves_state (self : Bank ℚ) (e : BankException) :
    (∀ accountId amount, (self.deposit accountId amount).2 = .error e →
      (self.deposit accountId amount).1 = self) ∧
    (∀ accountId amount, (self.withdraw accountId amount).2 = .error e →
      (self.withdraw accountId amount).1 = self) ∧
    (∀ src dst amount, (self.transfer src dst amount).2 = .error e →
      (self.transfer src dst amount).1 = self) ∧
    (∀ customerId x, (self.createSavingsAccount customerId x).2 = .error e →
      (self.createSavingsAccount customerId x).1 = self) ∧
    (∀ customerId x, (self.createCheckingAccount customerId x).2 = .error e →
      (self.createCheckingAccount customerId x).1 = self) ∧
    (∀ customerId P n, (self.createLoanAccount customerId P n).2 = .error e →
      (self.createLoanAccount customerId P n).1 = self) ∧
    (∀ accountId amount, amount ≤ 0 →
      (self.deposit accountId amount).1 = self ∧
      (self.withdraw accountId amount).1 = self) := by
  refine ⟨?_, ?_, ?_, ?_, ?_, ?_, ?_⟩
  · intro accountId amount herr
    cases hA : self.findAccount accountId with
    | none => rw [Bank.deposit_of_none self accountId amount hA]
    | some A =>
      by_cases ha : amount ≤ 0
      · rw [Bank.deposit_of_nonpos self accountId amount A hA ha]
      · have := (Bank.deposit_of_pos self accountId amount A hA (not_le.mp ha)).1
        rw [this] at herr
        cases herr
  · intro accountId amount herr
    cases hA : self.findAccount accountId with
    | none => rw [Bank.withdraw_of_none self accountId amount hA]
    | some A =>
      by_cases hok : (A.withdraw amount).2 = .ok true
      · have := (Bank.withdraw_of_ok self accountId amount A hA hok).1
        rw [this] at herr
        cases herr
      · rw [Bank.withdraw_of_failed self accountId amount A hA hok]
  · intro src dst amount herr
    cases hA : self.findAccount src with
    | none => rw [Bank.transfer_of_none self src dst amount (Or.inl hA)]
    | some A =>
      cases hB : self.findAccount dst with
      | none => rw [Bank.transfer_of_none self src dst amount (Or.inr hB)]
      | some B =>
        by_cases hok : (A.withdraw amount).2 = .ok true
        · have := Bank.transfer_result_of_withdraw_ok self src dst amount A B hA hB hok
          rw [this] at herr
          cases herr
        · rw [Bank.transfer_of_withdraw_failed self src dst amount A B hA hB hok]
  · intro customerId x herr
    cases hc : self.findCustomer customerId with
    | none => rw [(Bank.create_of_none self customerId hc).1 x]
    | some c =>
      rw [(Bank.create_result_of_some self customerId c hc).1 x] at herr
      cases herr
  · intro customerId x herr
    cases hc : self.findCustomer customerId with
    | none => rw [(Bank.create_of_none self customerId hc).2.1 x]
    | some c =>
      rw [(Bank.create_result_of_some self customerId c hc).2.1 x] at herr
      cases herr
  · intro customerId P n herr
    cases hc : self.findCustomer customerId with
    | none => rw [(Bank.create_of_none self customerId hc).2.2 P n]
    | some c =>
      rw [(Bank.create_result_of_some self customerId c hc).2.2 P n] at herr
      cases herr
  · intro accountId amount ha
    cases hA : self.findAccount accountId with
    | none =>
      rw [Bank.deposit_of_none self accountId amount hA,
        Bank.withdraw_of_none self accountId amount hA]
      exact ⟨rfl, rfl⟩
    | some A =>
      have hno : (A.withdraw amount).2 ≠ .ok true := by
        intro hok
        have := (Account.withdraw_ok A amount hok).1
        exact absurd this (not_lt.mpr ha)
      rw [Bank.deposit_of_nonpos self accountId amount A hA ha,
        Bank.withdraw_of_failed self accountId amount A hA hno]
      exact ⟨rfl, rfl⟩

/-- C14, at concrete inputs: in `sampleBank` a deposit of 0, a withdrawal of 50
from the Savings account at its floor, a withdrawal of -1, a deposit to an
unknown account, a transfer to an unknown account and the opening of an account
for an unknown customer each report a failure and leave the bank as it was. -/
theorem failure_leaves_state_witness :
    ((sampleBank.deposit "SAV10001" 0).2 = .error .InvalidAmount ∧
      (sampleBank.deposit "SAV10001" 0).1 = sampleBank) ∧
    ((sampleBank.withdraw "SAV10001" 50).2 = .error .InsufficientFunds ∧
      (sampleBank.withdraw "SAV10001" 50).1 = sampleBank) ∧
    ((sampleBank.withdraw "SAV10001" (-1)).2 = .error .InvalidAmount ∧
      (sampleBank.withdraw "SAV10001" (-1)).1 = sampleBank) ∧
    ((sampleBank.deposit "SAV99999" 10).2 = .error .AccountNotFound ∧
      (sampleBank.deposit "SAV99999" 10).1 = sampleBank) ∧
    ((sampleBank.transfer "SAV10001" "SAV99999" 10).2 = .error .AccountNotFound ∧
      (sampleBank.transfer "SAV10001" "SAV99999" 10).1 = sampleBank) ∧
    ((sampleBank.createSavingsAccount "CUST9999" 100).2 = .error .AccountNotFound ∧
      (sampleBank.createSavingsAccount "CUST9999" 100).1 = sampleBank) := by
  have hS : sampleBank.findAccount "SAV10001" = some sampleSavings := by
    simp [Bank.findAccount, sampleBank, mapFind]
  have hN : sampleBank.findAccount "SAV99999" = none := by
    simp [Bank.findAccount, sampleBank, mapFind]
  have hC : sampleBank.findCustomer "CUST9999" = none := by
    simp [Bank.findCustomer, sampleBank, mapFind]
  have r1 : (sampleBank.deposit "SAV10001" 0).2 = .error .InvalidAmount := by
    rw [Bank.deposit_of_nonpos sampleBank "SAV10001" 0 sampleSavings hS le_rfl]
  have w50 : (sampleSavings.withdraw 50).2 = .error .InsufficientFunds := by
    norm_num [Account.withdraw, sampleSavings, SavingsAccount.withdraw,
      SavingsAccount.minimumBalance]
  have wneg : (sampleSavings.withdraw (-1)).2 = .error .InvalidAmount := by
    norm_num [Account.withdraw, sampleSavings, SavingsAccount.withdraw]
  have r2 : (sampleBank.withdraw "SAV10001" 50).2 = .error .InsufficientFunds := by
    rw [Bank.withdraw_of_failed sampleBank "SAV10001" 50 sampleSavings hS (by rw [w50]; simp),
      w50]
    rfl
  have r3 : (sampleBank.withdraw "SAV10001" (-1)).2 = .error .InvalidAmount := by
    rw [Bank.withdraw_of_failed sampleBank "SAV10001" (-1) sampleSavings hS
      (by rw [wneg]; simp), wneg]
    rfl
  have r4 : (sampleBank.deposit "SAV99999" 10).2 = .error .AccountNotFound := by
    rw [Bank.deposit_of_none sampleBank "SAV99999" 10 hN]
  have r5 : (sampleBank.transfer "SAV10001" "SAV99999" 10).2 = .error .AccountNotFound := by
    rw [Bank.transfer_of_none sampleBank "SAV10001" "SAV99999" 10 (Or.inr hN)]
  have r6 : (sampleBank.createSavingsAccount "CUST9999" 100).2 = .error .AccountNotFound := by
    rw [(Bank.create_of_none sampleBank "CUST9999" hC).1 100]
  exact ⟨⟨r1, (failure_leaves_state sampleBank .InvalidAmount).1 _ _ r1⟩,
    ⟨r2, (failure_leaves_state sampleBank .InsufficientFunds).2.1 _ _ r2⟩,
    ⟨r3, (failure_leaves_state sampleBank .InvalidAmount).2.1 _ _ r3⟩,
    ⟨r4, (failure_leaves_state sampleBank .AccountNotFound).1 _ _ r4⟩,
    ⟨r5, (failure_leaves_state sampleBank .AccountNotFound).2.2.1 _ _ _ r5⟩,
    ⟨r6, (failure_leaves_state sampleBank .AccountNotFound).2.2.2.1 _ _ r6⟩⟩

/-- C15. For every bank state and every amount, valid or not, `deposit` and
`withdraw` on an identifier that is not in the account table, and `transfer`
with a source or a destination that is not in the table, throw AccountNotFound
and leave the bank as it was: the existence of both sides of a transfer is
checked before the amount is looked at and before any balance changes. -/
theorem unknown_account_not_found (self : Bank ℚ) (amount : ℚ) :
    (∀ accountId, self.findAccount accountId = none →
      self.deposit accountId amount = (self, .error .AccountNotFound) ∧
      self.withdraw accountId amount = (self, .error .AccountNotFound)) ∧
    (∀ src dst, self.findAccount src = none ∨ self.findAccount dst = none →
      self.transfer src dst amount = (self, .error .AccountNotFound)) :=
  ⟨fun accountId h =>
      ⟨Bank.deposit_of_none self accountId amount h,
       Bank.withdraw_of_none self accountId amount h⟩,
   fun src dst h => Bank.transfer_of_none self src dst amount h⟩

/-- C15, at concrete inputs: in `sampleBank`, depositing 10 to and withdrawing 10
from the unknown "SAV99999" throw AccountNotFound, and so do a transfer of the
invalid amount -5 to it and a transfer of 1000000 out of it. -/
theorem unknown_account_not_found_witness :
    sampleBank.deposit "SAV99999" 10 = (sampleBank, .error .AccountNotFound) ∧
    sampleBank.withdraw "SAV99999" 10 = (sampleBank, .error .AccountNotFound) ∧
    sampleBank.transfer "SAV10001" "SAV99999" (-5) =
      (sampleBank, .error .AccountNotFound) ∧
    sampleBank.transfer "SAV99999" "SAV10001" 1000000 =
      (sampleBank, .error .AccountNotFound) := by
  have hN : sampleBank.findAccount "SAV99999" = none := by
    simp [Bank.findAccount, sampleBank, mapFind]
  exact ⟨((unknown_account_not_found sampleBank 10).1 "SAV99999" hN).1,
    ((unknown_account_not_found sampleBank 10).1 "SAV99999" hN).2,
    (unknown_account_not_found sampleBank (-5)).2 "SAV10001" "SAV99999" (Or.inr hN),
    (unknown_account_not_found sampleBank 1000000).2 "SAV99999" "SAV10001" (Or.inl hN)⟩

/-- C16, as stated, fails: "CUST9999" is not registered in `sampleBank`, and
opening a Savings account for it throws AccountNotFound, the exception of an
unknown account; no exception of the source has the kind CustomerNotFound. -/
theorem unknown_customer_kind_counterexample :
    sampleBank.findCustomer "CUST9999" = none ∧
    (sampleBank.createSavingsAccount "CUST9999" 100).2 = .error .AccountNotFound ∧
    ¬ ∃ e : BankException,
        (sampleBank.createSavingsAccount "CUST9999" 100).2 = .error e ∧
        e.kind = .CustomerNotFound := by
  have hC : sampleBank.findCustomer "CUST9999" = none := by
    simp [Bank.findCustomer, sampleBank, mapFind]
  refine ⟨hC, ?_, ?_⟩
  · rw [(Bank.create_of_none sampleBank "CUST9999" hC).1 100]
  · rintro ⟨e, -, hk⟩
    cases e <;> simp [BankException.kind] at hk

/-- C16, amended. For every bank state and every customer identifier that is not
in the customer registry, opening a Savings, a Checking or a Loan account for it
throws AccountNotFound, whose kind is AccountNotFound, and leaves the bank as it
was. -/
theorem unknown_customer_account_not_found (self : Bank ℚ) (customerId : String)
    (h : self.findCustomer customerId = none) :
    (∀ x, self.createSavingsAccount customerId x = (self, .error .AccountNotFound)) ∧
    (∀ x, self.createCheckingAccount customerId x = (self, .error .AccountNotFound)) ∧
    (∀ P n, self.createLoanAccount customerId P n = (self, .error .AccountNotFound)) ∧
    BankException.AccountNotFound.kind = ErrorKind.AccountNotFound :=
  ⟨(Bank.create_of_none self customerId h).1, (Bank.create_of_none self customerId h).2.1,
   (Bank.create_of_none self customerId h).2.2, rfl⟩

/-- C16, amended, at a concrete input: the three openings for the unregistered
"CUST9999" in `sampleBank`. -/
theorem unknown_customer_account_not_found_witness :
    sampleBank.createSavingsAccount "CUST9999" 100 =
      (sampleBank, .error .AccountNotFound) ∧
    sampleBank.createCheckingAccount "CUST9999" 100 =
      (sampleBank, .error .AccountNotFound) ∧
    sampleBank.createLoanAccount "CUST9999" 1200 12 =
      (sampleBank, .error .AccountNotFound) := by
  have hC : sampleBank.findCustomer "CUST9999" = none := by
    simp [Bank.findCustomer, sampleBank, mapFind]
  obtain ⟨h1, h2, h3, -⟩ := unknown_customer_account_not_found sampleBank "CUST9999" hC
  exact ⟨h1 100, h2 100, h3 1200 12⟩

/-! ## Records filed by deposit, withdraw and transfer -/

/-- C13. For every transfer between two distinct existing accounts whose
withdrawal on the source succeeds, the transfer ends normally and exactly one
record is created (the counter advances by one): it has kind TRANSFER, source
`src`, destination `dst` and the transferred amount, and it becomes the new
last entry of the source's log, of the destination's log and of the global log,
each of which grows by that one entry. -/
theorem transfer_files_one_record (self : Bank ℚ) (src dst : String) (amount : ℚ)
    (A B : Account ℚ) (hne : src ≠ dst)
    (hA : self.findAccount src = some A) (hB : self.findAccount dst = some B)
    (hok : (A.withdraw amount).2 = .ok true) :
    (self.transfer src dst amount).2 = .ok () ∧
    (self.transferRecord src dst amount).type = .TRANSFER ∧
    (self.transferRecord src dst amount).fromAccountId = src ∧
    (self.transferRecord src dst amount).toAccountId = dst ∧
    (self.transferRecord src dst amount).amount = amount ∧
    (self.transferRecord src dst amount).transactionId = self.nextTransactionId + 1 ∧
    (self.transfer src dst amount).1.nextTransactionId = self.nextTransactionId + 1 ∧
    (self.transfer src dst amount).1.historyOf src =
      some (A.transactionHistory ++ [self.transferRecord src dst amount]) ∧
    (self.transfer src dst amount).1.historyOf dst =
      some (B.transactionHistory ++ [self.transferRecord src dst amount]) ∧
    (self.transfer src dst amount).1.allTransactions =
      self.allTransactions ++ [self.transferRecord src dst amount] := by
  obtain ⟨hr, hs, hd, hg, hn, -⟩ :=
    Bank.transfer_of_withdraw_ok self src dst amount A B hne hA hB hok
  refine ⟨hr, rfl, rfl, rfl, rfl, rfl, hn, ?_, ?_, hg⟩
  · rw [Bank.historyOf, hs, (Account.withdraw_ok A amount hok).2]
    rfl
  · rw [Bank.historyOf, hd]
    rfl

/-- C13, at a concrete input: in `sampleBank`, a transfer of 50 from the Checking
to the Savings account files the record number 3 at the end of both logs and of
the global log. -/
theorem transfer_files_one_record_witness :
    (sampleBank.transfer "CHK10002" "SAV10001" 50).1.historyOf "CHK10002" =
      some (sampleChecking.transactionHistory ++
        [{ transactionId := 3, fromAccountId := "CHK10002", toAccountId := "SAV10001",
           amount := 50, type := .TRANSFER, description := "" }]) ∧
    (sampleBank.transfer "CHK10002" "SAV10001" 50).1.historyOf "SAV10001" =
      some (sampleSavings.transactionHistory ++
        [{ transactionId := 3, fromAccountId := "CHK10002", toAccountId := "SAV10001",
           amount := 50, type := .TRANSFER, description := "" }]) ∧
    (sampleBank.transfer "CHK10002" "SAV10001" 50).1.allTransactions =
      sampleBank.allTransactions ++
        [{ transactionId := 3, fromAccountId := "CHK10002", toAccountId := "SAV10001",
           amount := 50, type := .TRANSFER, description := "" }] := by
  have hne : "CHK10002" ≠ "SAV10001" := by decide
  have hA : sampleBank.findAccount "CHK10002" = some sampleChecking := by
    simp [Bank.findAccount, sampleBank, mapFind]
  have hB : sampleBank.findAccount "SAV10001" = some sampleSavings := by
    simp [Bank.findAccount, sampleBank, mapFind]
  have h50 : (sampleChecking.withdraw 50).2 = .ok true := by
    norm_num [Account.withdraw, sampleChecking, CheckingAccount.withdraw,
      CheckingAccount.overdraftLimit]
  have hrec : sampleBank.transferRecord "CHK10002" "SAV10001" 50 =
      { transactionId := 3, fromAccountId := "CHK10002", toAccountId := "SAV10001",
        amount := 50, type := .TRANSFER, description := "" } := by
    simp [Bank.transferRecord, sampleBank]
  obtain ⟨-, -, -, -, -, -, -, h1, h2, h3⟩ :=
    transfer_files_one_record sampleBank "CHK10002" "SAV10001" 50
      sampleChecking sampleSavings hne hA hB h50
  rw [hrec] at h1 h2 h3
  exact ⟨h1, h2, h3⟩

/-- C20. For every existing account and every amount, `Bank::withdraw` appends
a record (kind WITHDRAWAL, source the account, destination "EXTERNAL", the
requested amount) to the account's log and to the global log if and only if the
account's own `withdraw` returned `true`; when it did not, the bank is left as
it was; and on a Loan account `Bank::withdraw` files nothing, throws nothing
and changes nothing. -/
theorem bank_withdraw_files_iff (self : Bank ℚ) (accountId : String) (amount : ℚ)
    (A : Account ℚ) (hA : self.findAccount accountId = some A) :
    (self.withdrawalRecord accountId amount).type = .WITHDRAWAL ∧
    (self.withdrawalRecord accountId amount).fromAccountId = accountId ∧
    (self.withdrawalRecord accountId amount).toAccountId = "EXTERNAL" ∧
    (self.withdrawalRecord accountId amount).amount = amount ∧
    (((self.withdraw accountId amount).1.historyOf accountId =
        some (A.transactionHistory ++ [self.withdrawalRecord accountId amount]) ∧
      (self.withdraw accountId amount).1.allTransactions =
        self.allTransactions ++ [self.withdrawalRecord accountId amount]) ↔
      (A.withdraw amount).2 = .ok true) ∧
    ((A.withdraw amount).2 ≠ .ok true → (self.withdraw accountId amount).1 = self) ∧
    (A.getAccountType = .LOAN → self.withdraw accountId amount = (self, .ok ())) := by
  refine ⟨rfl, rfl, rfl, rfl, ?_, ?_, ?_⟩
  · constructor
    · rintro ⟨-, hg⟩
      by_contra hno
      rw [Bank.withdraw_of_failed self accountId amount A hA hno] at hg
      have := congrArg List.length hg
      simp at this
    · intro hok
      obtain ⟨-, hs, hg, -, -⟩ := Bank.withdraw_of_ok self accountId amount A hA hok
      refine ⟨?_, hg⟩
      rw [Bank.historyOf, hs, (Account.withdraw_ok A amount hok).2]
      rfl
  · intro hno
    rw [Bank.withdraw_of_failed self accountId amount A hA hno]
  · intro hl
    obtain ⟨P, n, m, hc⟩ := Account.getAccountType_loan hl
    have hw : A.withdraw amount = (A, .ok false) := by
      simp [Account.withdraw, hc, LoanAccount.withdraw]
    rw [Bank.withdraw_of_failed self accountId amount A hA (by rw [hw]; simp), hw]
    rfl

/-- C20, at concrete inputs: in `sampleLoanBank`, withdrawing 100 from the Loan
account returns normally and changes nothing; withdrawing 50 from the Savings
account at its floor leaves the bank as it was. -/
theorem bank_withdraw_files_iff_witness :
    sampleLoanBank.withdraw "LOAN10003" 100 = (sampleLoanBank, .ok ()) ∧
    (sampleLoanBank.withdraw "SAV10001" 50).1 = sampleLoanBank := by
  have hL : sampleLoanBank.findAccount "LOAN10003" = some sampleLoan := by
    simp [Bank.findAccount, sampleLoanBank, mapFind]
  have hS : sampleLoanBank.findAccount "SAV10001" = some sampleSavings := by
    simp [Bank.findAccount, sampleLoanBank, mapFind]
  have w50 : (sampleSavings.withdraw 50).2 = .error .InsufficientFunds := by
    norm_num [Account.withdraw, sampleSavings, SavingsAccount.withdraw,
      SavingsAccount.minimumBalance]
  exact ⟨(bank_withdraw_files_iff sampleLoanBank "LOAN10003" 100 sampleLoan hL).2.2.2.2.2.2
      rfl,
    (bank_withdraw_files_iff sampleLoanBank "SAV10001" 50 sampleSavings hS).2.2.2.2.2.1
      (by rw [w50]; simp)⟩

/-! ## Opening accounts -/

/-- C17. In every bank state reachable from a freshly constructed bank, the
identifier returned by opening a Savings, a Checking or a Loan account is not in
the account table, every account that was in the table is still there, as it
was, after the opening, and the identifiers in the table (the keys, and the
identifiers the account objects carry) are pairwise distinct. -/
theorem opened_id_is_new (s : Bank ℚ) (hr : s.Reachable) :
    (∀ customerId x id, (s.createSavingsAccount customerId x).2 = .ok id →
      s.findAccount id = none ∧
      ∀ k A, s.findAccount k = some A →
        (s.createSavingsAccount customerId x).1.findAccount k = some A) ∧
    (∀ customerId x id, (s.createCheckingAccount customerId x).2 = .ok id →
      s.findAccount id = none ∧
      ∀ k A, s.findAccount k = some A →
        (s.createCheckingAccount customerId x).1.findAccount k = some A) ∧
    (∀ customerId P n id, (s.createLoanAccount customerId P n).2 = .ok id →
      s.findAccount id = none ∧
      ∀ k A, s.findAccount k = some A →
        (s.createLoanAccount customerId P n).1.findAccount k = some A) ∧
    (mapKeys s.accounts).Nodup ∧
    (s.accounts.map (fun p => p.2.accountId)).Nodup := by
  have h := hr.idsOK
  refine ⟨?_, ?_, ?_, h.2.2.1, ?_⟩
  · intro customerId x id hid
    cases hc : s.findCustomer customerId with
    | none =>
      rw [(Bank.create_of_none s customerId hc).1 x] at hid
      cases hid
    | some c =>
      rw [(Bank.create_result_of_some s customerId c hc).1 x] at hid
      cases hid
      obtain ⟨hf, -, -, -, -, -, hfr⟩ := (h.opened customerId c hc).1 x
      exact ⟨hf, hfr⟩
  · intro customerId x id hid
    cases hc : s.findCustomer customerId with
    | none =>
      rw [(Bank.create_of_none s customerId hc).2.1 x] at hid
      cases hid
    | some c =>
      rw [(Bank.create_result_of_some s customerId c hc).2.1 x] at hid
      cases hid
      obtain ⟨hf, -, -, -, -, -, hfr⟩ := (h.opened customerId c hc).2.1 x
      exact ⟨hf, hfr⟩
  · intro customerId P n id hid
    cases hc : s.findCustomer customerId with
    | none =>
      rw [(Bank.create_of_none s customerId hc).2.2 P n] at hid
      cases hid
    | some c =>
      rw [(Bank.create_result_of_some s customerId c hc).2.2 P n] at hid
      cases hid
      obtain ⟨hf, -, -, -, -, -, hfr⟩ := (h.opened customerId c hc).2.2 P n
      exact ⟨hf, hfr⟩
  · have e : s.accounts.map (fun p => p.2.accountId) = mapKeys s.accounts :=
      List.map_congr_left (fun p hp => h.2.2.2 p hp)
    rw [e]
    exact h.2.2.1

/-- C17, at a concrete input: `sampleBank` is reachable; the Savings account its
customer opens next gets the identifier "SAV10003", which is not in the table,
and the two accounts of the table are still there afterwards. -/
theorem opened_id_is_new_witness :
    sampleBank.Reachable ∧
    (sampleBank.createSavingsAccount "CUST1001" 5).2 = .ok "SAV10003" ∧
    sampleBank.findAccount "SAV10003" = none ∧
    (sampleBank.createSavingsAccount "CUST1001" 5).1.findAccount "SAV10001" =
      some sampleSavings ∧
    (sampleBank.createSavingsAccount "CUST1001" 5).1.findAccount "CHK10002" =
      some sampleChecking ∧
    (mapKeys sampleBank.accounts).Nodup := by
  have e : "SAV" ++ toString (sampleBank.nextAccountId + 1) = "SAV10003" := by decide
  have hid : (sampleBank.createSavingsAccount "CUST1001" 5).2 = .ok "SAV10003" := by
    rw [(Bank.create_result_of_some sampleBank "CUST1001" sampleCustomer
      sampleBank_findCustomer).1 5, e]
  have hS : sampleBank.findAccount "SAV10001" = some sampleSavings := by
    simp [Bank.findAccount, sampleBank, mapFind]
  have hK : sampleBank.findAccount "CHK10002" = some sampleChecking := by
    simp [Bank.findAccount, sampleBank, mapFind]
  obtain ⟨h1, -, -, h4, -⟩ := opened_id_is_new sampleBank sampleBank_reachable
  obtain ⟨hf, hfr⟩ := h1 "CUST1001" 5 "SAV10003" hid
  exact ⟨sampleBank_reachable, hid, hf, hfr _ _ hS, hfr _ _ hK, h4⟩

/-- C18. In every reachable bank state, for every registered customer `c`,
opening a Savings or a Checking account with initial balance `x` returns the next
identifier and has the effect `Bank.Opened`: one account added, of that type,
with balance `x`, owned by `c`, its identifier appended to `c`'s list, and one
seed record (kind DEPOSIT, origin "BANK", destination the new identifier, amount
`x`, description "Initial deposit") as the whole log of the new account and the
new last entry of the global log, all previous accounts being as they were;
opening a Loan with principal `P` does the same with balance `-P` and a seed
record of amount `P` described as "Loan disbursement". -/
theorem open_account_effect (s : Bank ℚ) (hr : s.Reachable) (customerId : String)
    (c : Customer) (hc : s.findCustomer customerId = some c) :
    (∀ x,
      (s.createSavingsAccount customerId x).2 =
        .ok ("SAV" ++ toString (s.nextAccountId + 1)) ∧
      Bank.Opened s (s.createSavingsAccount customerId x).1 customerId c
        ("SAV" ++ toString (s.nextAccountId + 1)) .SAVINGS x
        { transactionId := s.nextTransactionId + 1, fromAccountId := "BANK",
          toAccountId := "SAV" ++ toString (s.nextAccountId + 1), amount := x,
          type := .DEPOSIT, description := "Initial deposit" }) ∧
    (∀ x,
      (s.createCheckingAccount customerId x).2 =
        .ok ("CHK" ++ toString (s.nextAccountId + 1)) ∧
      Bank.Opened s (s.createCheckingAccount customerId x).1 customerId c
        ("CHK" ++ toString (s.nextAccountId + 1)) .CHECKING x
        { transactionId := s.nextTransactionId + 1, fromAccountId := "BANK",
          toAccountId := "CHK" ++ toString (s.nextAccountId + 1), amount := x,
          type := .DEPOSIT, description := "Initial deposit" }) ∧
    (∀ P n,
      (s.createLoanAccount customerId P n).2 =
        .ok ("LOAN" ++ toString (s.nextAccountId + 1)) ∧
      Bank.Opened s (s.createLoanAccount customerId P n).1 customerId c
        ("LOAN" ++ toString (s.nextAccountId + 1)) .LOAN (-P)
        { transactionId := s.nextTransactionId + 1, fromAccountId := "BANK",
          toAccountId := "LOAN" ++ toString (s.nextAccountId + 1), amount := P,
          type := .DEPOSIT, description := "Loan disbursement" }) := by
  obtain ⟨o1, o2, o3⟩ := hr.idsOK.opened customerId c hc
  obtain ⟨r1, r2, r3⟩ := Bank.create_result_of_some s customerId c hc
  exact ⟨fun x => ⟨r1 x, o1 x⟩, fun x => ⟨r2 x, o2 x⟩, fun P n => ⟨r3 P n, o3 P n⟩⟩

/-- C18, at a concrete input: in `sampleBank`, which is reachable, the customer
"CUST1001" opens a Loan of 1200 over 12 months: the account "LOAN10003" is
added with balance -1200 and the seed record number 3, of amount 1200. -/
theorem open_account_effect_witness :
    sampleBank.Reachable ∧
    sampleBank.findCustomer "CUST1001" = some sampleCustomer ∧
    (sampleBank.createLoanAccount "CUST1001" 1200 12).2 = .ok "LOAN10003" ∧
    Bank.Opened sampleBank (sampleBank.createLoanAccount "CUST1001" 1200 12).1 "CUST1001"
      sampleCustomer "LOAN10003" .LOAN (-1200)
      { transactionId := 3, fromAccountId := "BANK", toAccountId := "LOAN10003",
        amount := 1200, type := .DEPOSIT, description := "Loan disbursement" } := by
  have e : "LOAN" ++ toString (sampleBank.nextAccountId + 1) = "LOAN10003" := by decide
  have e' : sampleBank.nextTransactionId + 1 = 3 := by decide
  obtain ⟨-, -, h3⟩ :=
    open_account_effect sampleBank sampleBank_reachable "CUST1001" sampleCustomer
      sampleBank_findCustomer
  have h := h3 1200 12
  rw [e, e'] at h
  exact ⟨sampleBank_reachable, sampleBank_findCustomer, h.1, h.2⟩

/-! ## Transfers: debit implies credit, and transfers to oneself -/

/-- C27. In exact arithmetic, for every principal `P > 0` and term `n ≥ 1`, a
Loan account opened with `(P, n)` has the installment
`M = P * r * (1 + r)^n / ((1 + r)^n - 1)` with `r = 0.065/12`, the denominator
is not zero, `M` is positive, so that every payment of it is accepted, and after
`n` months, each a `calculateInterest()` followed by `deposit(M)`, the balance
is exactly 0. -/
theorem installment_amortises (accId custId : String) (P : ℚ) (n : ℕ)
    (hP : 0 < P) (hn : 1 ≤ n) :
    (1 + (65 / 1000) / 12 : ℚ) ^ n - 1 ≠ 0 ∧
    LoanAccount.getMonthlyPayment (LoanAccount.new (R := ℚ) accId custId P n) =
      P * ((65 / 1000) / 12) * (1 + (65 / 1000) / 12) ^ n /
        ((1 + (65 / 1000) / 12) ^ n - 1) ∧
    0 < LoanAccount.getMonthlyPayment (LoanAccount.new (R := ℚ) accId custId P n) ∧
    (∀ acc : Account ℚ,
      (acc.deposit (LoanAccount.getMonthlyPayment (LoanAccount.new (R := ℚ) accId custId P n))).2 =
        .ok ()) ∧
    (LoanAccount.payInstallment^[n] (LoanAccount.new (R := ℚ) accId custId P n)).balance = 0 := by
  have hq : (1 : ℚ) < 1 + (65 / 1000) / 12 := by norm_num
  have hQ : (1 : ℚ) < (1 + (65 / 1000) / 12) ^ n := one_lt_pow₀ hq (by omega)
  have hQ0 : (0 : ℚ) < (1 + (65 / 1000) / 12) ^ n - 1 := by linarith
  have hM : LoanAccount.getMonthlyPayment (LoanAccount.new (R := ℚ) accId custId P n) =
      P * ((65 / 1000) / 12) * (1 + (65 / 1000) / 12) ^ n /
        ((1 + (65 / 1000) / 12) ^ n - 1) := by
    simp only [LoanAccount.getMonthlyPayment, LoanAccount.new, LoanAccount.loanRate_exact,
      CMath.pow_exact, zpow_natCast]
  have hMpos : 0 < LoanAccount.getMonthlyPayment (LoanAccount.new (R := ℚ) accId custId P n) := by
    rw [hM]
    have : (0 : ℚ) < (1 + (65 / 1000) / 12) ^ n := by linarith
    positivity
  have h0 : ∀ Q : ℚ, Q - 1 ≠ 0 → -P = P * (1 - Q) / (Q - 1) := by
    intro Q hQ'
    field_simp
    ring
  have hs : ∀ q Q x : ℚ, Q - 1 ≠ 0 →
      P * (x - Q) / (Q - 1) * q + P * (q - 1) * Q / (Q - 1) =
        P * (x * q - Q) / (Q - 1) := by
    intro q Q x hQ'
    field_simp
    ring
  have key : ∀ k, k ≤ n →
      (LoanAccount.payInstallment^[k] (LoanAccount.new (R := ℚ) accId custId P n)).cls =
        (LoanAccount.new (R := ℚ) accId custId P n).cls ∧
      (LoanAccount.payInstallment^[k] (LoanAccount.new (R := ℚ) accId custId P n)).balance =
        P * ((1 + (65 / 1000) / 12) ^ k - (1 + (65 / 1000) / 12) ^ n) /
          ((1 + (65 / 1000) / 12) ^ n - 1) := by
    intro k
    induction k with
    | zero =>
      intro _
      refine ⟨rfl, ?_⟩
      simp only [Function.iterate_zero, id_eq, LoanAccount.new, pow_zero]
      exact h0 _ hQ0.ne'
    | succ k ih =>
      intro hk
      obtain ⟨hc, hbal⟩ := ih (by omega)
      have hle : (1 + (65 / 1000) / 12 : ℚ) ^ k ≤ (1 + (65 / 1000) / 12) ^ n :=
        pow_le_pow_right₀ hq.le (by omega)
      have hb0 : (LoanAccount.payInstallment^[k]
          (LoanAccount.new (R := ℚ) accId custId P n)).balance ≤ 0 := by
        rw [hbal]
        apply div_nonpos_of_nonpos_of_nonneg _ hQ0.le
        exact mul_nonpos_of_nonneg_of_nonpos hP.le (by linarith)
      have hc' : (LoanAccount.payInstallment^[k] (LoanAccount.new (R := ℚ) accId custId P n)).cls =
          .loan P n (LoanAccount.getMonthlyPayment (LoanAccount.new (R := ℚ) accId custId P n)) := by
        rw [hc]
        rfl
      obtain ⟨hc2, hb2⟩ := LoanAccount.payInstallment_eq _ P n _ hc' hMpos hb0
      rw [Function.iterate_succ_apply']
      refine ⟨by rw [hc2]; rfl, ?_⟩
      have e : (1 + (65 / 1000) / 12 : ℚ) - 1 = (65 / 1000) / 12 := by ring
      have hstep := hs (1 + (65 / 1000) / 12) ((1 + (65 / 1000) / 12) ^ n)
        ((1 + (65 / 1000) / 12) ^ k) hQ0.ne'
      rw [e] at hstep
      rw [hb2, hbal, hM, pow_succ]
      exact hstep
  refine ⟨hQ0.ne', hM, hMpos, ?_, ?_⟩
  · intro acc
    rw [Account.deposit_eq, if_neg (not_le.mpr hMpos)]
  · rw [(key n le_rfl).2]
    simp

/-- C27, at a concrete input: the Loan of 1200 over 12 months has a positive
installment and is at exactly 0 after 12 months of interest and payment. -/
theorem installment_amortises_witness :
    0 < LoanAccount.getMonthlyPayment (LoanAccount.new (R := ℚ) "LOAN10003" "CUST1001" 1200 12) ∧
    (LoanAccount.payInstallment^[12]
      (LoanAccount.new (R := ℚ) "LOAN10003" "CUST1001" 1200 12)).balance = 0 := by
  obtain ⟨-, -, hpos, -, hzero⟩ :=
    installment_amortises "LOAN10003" "CUST1001" 1200 12 (by norm_num) (by norm_num)
  exact ⟨hpos, hzero⟩

/-! ## Monthly interest -/

/-- C21. `Bank::processMonthlyInterest` is total (it returns a state, it cannot
throw). Every account whose active flag is set has its class's
`calculateInterest` applied once and receives, at the end of its log, one record
of kind INTEREST_CREDIT and amount 0, which is also one of the records added to
the global log; every closed account object is as it was; the records added to
the global log are addressed, in order, to the active accounts of the table, so
the global log grows by exactly the number of active accounts, and the counter
advances by that number; no account enters or leaves the table. -/
theorem monthly_interest_effect (s : Bank ℚ) :
    (∀ k A, s.findAccount k = some A → A.isActive = true →
      ∃ t ∈ (processInterestEntries s.accounts s.nextTransactionId).2.1,
        t.type = .INTEREST_CREDIT ∧ t.amount = 0 ∧ t.toAccountId = A.accountId ∧
        s.processMonthlyInterest.findAccount k =
          some (A.calculateInterest.addTransaction t) ∧
        s.processMonthlyInterest.balanceOf k = some A.calculateInterest.balance ∧
        s.processMonthlyInterest.historyOf k = some (A.transactionHistory ++ [t])) ∧
    (∀ k A, s.findAccount k = some A → A.isActive = false →
      s.processMonthlyInterest.findAccount k = some A) ∧
    s.processMonthlyInterest.allTransactions =
      s.allTransactions ++ (processInterestEntries s.accounts s.nextTransactionId).2.1 ∧
    (processInterestEntries s.accounts s.nextTransactionId).2.1.map Transaction.toAccountId =
      (s.accounts.filter (fun p => p.2.isActive)).map (fun p => p.2.accountId) ∧
    s.processMonthlyInterest.allTransactions.length =
      s.allTransactions.length + (s.accounts.filter (fun p => p.2.isActive)).length ∧
    (∀ t ∈ (processInterestEntries s.accounts s.nextTransactionId).2.1,
      t.type = .INTEREST_CREDIT ∧ t.amount = 0) ∧
    s.processMonthlyInterest.nextTransactionId =
      s.nextTransactionId + (s.accounts.filter (fun p => p.2.isActive)).length ∧
    mapKeys s.processMonthlyInterest.accounts = mapKeys s.accounts := by
  obtain ⟨f1, f2, f3, -⟩ := processInterestEntries_filed s.accounts s.nextTransactionId
  have hlen : (processInterestEntries s.accounts s.nextTransactionId).2.1.length =
      (s.accounts.filter (fun p => p.2.isActive)).length := by
    have := congrArg List.length f2
    simpa using this
  refine ⟨?_, ?_, rfl, f2, ?_, ?_, ?_, mapKeys_processInterestEntries _ _⟩
  · intro k A hA hact
    obtain ⟨t, htm, hto, hf⟩ :=
      (processInterestEntries_find s.accounts s.nextTransactionId k A hA).2 hact
    have hf' : s.processMonthlyInterest.findAccount k =
        some (A.calculateInterest.addTransaction t) := hf
    refine ⟨t, htm, (f3 t htm).1, (f3 t htm).2.1, hto, hf', ?_, ?_⟩
    · rw [Bank.balanceOf, hf']; rfl
    · rw [Bank.historyOf, hf']
      simp [Account.addTransaction, (Account.calculateInterest_fields A).2.1]
  · intro k A hA hact
    exact (processInterestEntries_find s.accounts s.nextTransactionId k A hA).1 hact
  · show (s.allTransactions ++
      (processInterestEntries s.accounts s.nextTransactionId).2.1).length = _
    rw [List.length_append, hlen]
  · intro t ht
    exact ⟨(f3 t ht).1, (f3 t ht).2.1⟩
  · show (processInterestEntries s.accounts s.nextTransactionId).2.2 = _
    rw [f1, hlen]

/-- C21, at a concrete input: in `sampleBank` with its Checking account closed, a
month of interest takes the Savings account from 100 to 100 * (1 + 0.035/12),
adds one entry to its log, leaves the closed Checking account as it was and adds
one record to the global log. -/
theorem monthly_interest_effect_witness :
    (sampleBank.closeAccount "CHK10002").processMonthlyInterest.balanceOf "SAV10001" =
      some (2407 / 24) ∧
    ((sampleBank.closeAccount "CHK10002").processMonthlyInterest.historyOf "SAV10001").map
      List.length = some 2 ∧
    (sampleBank.closeAccount "CHK10002").processMonthlyInterest.findAccount "CHK10002" =
      some sampleChecking.closeAccount ∧
    (sampleBank.closeAccount "CHK10002").processMonthlyInterest.allTransactions.length =
      3 := by
  have hS : (sampleBank.closeAccount "CHK10002").findAccount "SAV10001" =
      some sampleSavings := by
    simp [Bank.closeAccount, Bank.modifyAccount, Bank.findAccount, sampleBank, mapFind,
      mapModify]
  have hK : (sampleBank.closeAccount "CHK10002").findAccount "CHK10002" =
      some sampleChecking.closeAccount := by
    simp [Bank.closeAccount, Bank.modifyAccount, Bank.findAccount, sampleBank, mapFind,
      mapModify]
  obtain ⟨h1, h2, -, -, h5, -⟩ := monthly_interest_effect (sampleBank.closeAccount "CHK10002")
  obtain ⟨t, -, -, -, -, -, hb, hh⟩ := h1 "SAV10001" sampleSavings hS rfl
  refine ⟨?_, ?_, h2 "CHK10002" _ hK rfl, ?_⟩
  · rw [hb]
    norm_num [sampleSavings, Account.calculateInterest, SavingsAccount.calculateInterest,
      SavingsAccount.interestRate]
  · rw [hh]
    simp [sampleSavings]
  · rw [h5]
    simp [Bank.closeAccount, Bank.modifyAccount, sampleBank, mapModify, sampleChecking,
      sampleSavings, Account.closeAccount]

/-! ## The ledger -/

/-- C22. Every newly created record receives the counter plus one, and the
counter becomes that identifier. So in every reachable bank state the
identifiers of the global log increase strictly in log order, none exceeds the
counter (the next identifier is new), they are pairwise distinct, and the
identifiers of the log of every account increase strictly as well, provided the
log holds no record of a transfer from an account to itself (such a record is
what a transfer with the account as both source and destination leaves, twice,
in the log). -/
theorem transaction_ids_increase (s : Bank ℚ) (hr : s.Reachable) :
    (∀ src dst amt ty desc,
      (s.makeTransaction src dst amt ty desc).1.transactionId = s.nextTransactionId + 1 ∧
      (s.makeTransaction src dst amt ty desc).2.nextTransactionId =
        s.nextTransactionId + 1) ∧
    s.allTransactions.Pairwise (fun t u => t.transactionId < u.transactionId) ∧
    (∀ t ∈ s.allTransactions, t.transactionId ≤ s.nextTransactionId) ∧
    (s.allTransactions.map Transaction.transactionId).Nodup ∧
    (∀ k A, s.findAccount k = some A →
      (∀ t ∈ A.transactionHistory,
        ¬ (t.type = .TRANSFER ∧ t.fromAccountId = t.toAccountId)) →
      A.transactionHistory.Pairwise (fun t u => t.transactionId < u.transactionId)) := by
  have h := hr.ledgerOK
  refine ⟨fun _ _ _ _ _ => ⟨rfl, rfl⟩, h.1, h.2.1, ?_, ?_⟩
  · rw [List.Nodup, List.pairwise_map]
    exact h.1.imp (fun hlt => ne_of_lt hlt)
  · intro k A hA hno
    have hlog := (h.2.2.log_of_mapFind (show mapFind s.accounts k = some A from hA)).2
    refine hlog.imp_of_mem ?_
    intro t u ht _ hord
    rcases hord with hlt | ⟨-, hty, hself⟩
    · exact hlt
    · exact absurd ⟨hty, hself⟩ (hno t ht)

/-- C22, at a concrete input: `sampleBank` is reachable; the identifiers of its
global log and of the log of its Savings account increase. -/
theorem transaction_ids_increase_witness :
    sampleBank.Reachable ∧
    sampleBank.allTransactions.Pairwise (fun t u => t.transactionId < u.transactionId) ∧
    sampleBank.allTransactions.map Transaction.transactionId = [1, 2] ∧
    sampleSavings.transactionHistory.Pairwise
      (fun t u => t.transactionId < u.transactionId) := by
  have hS : sampleBank.findAccount "SAV10001" = some sampleSavings := by
    simp [Bank.findAccount, sampleBank, mapFind]
  obtain ⟨-, h2, -, -, h5⟩ := transaction_ids_increase sampleBank sampleBank_reachable
  refine ⟨sampleBank_reachable, h2, by simp [sampleBank], h5 "SAV10001" sampleSavings hS ?_⟩
  intro t ht
  simp only [sampleSavings, List.mem_singleton] at ht
  subst ht
  simp

/-- C23 fails on the code. Opening a Savings account for the registered customer
of `sampleBank` with the initial deposit -50 is accepted: the state reached has a
DEPOSIT record of amount -50 in its global log and an account at -50, whereas
`Bank::deposit` refuses the same amount with InvalidAmount. -/
theorem negative_initial_deposit_recorded :
    (sampleBank.createSavingsAccount "CUST1001" (-50)).1.Reachable ∧
    (sampleBank.createSavingsAccount "CUST1001" (-50)).2 = .ok "SAV10003" ∧
    (sampleBank.createSavingsAccount "CUST1001" (-50)).1.allTransactions =
      sampleBank.allTransactions ++
        [{ transactionId := 3, fromAccountId := "BANK", toAccountId := "SAV10003",
           amount := -50, type := .DEPOSIT, description := "Initial deposit" }] ∧
    (∃ t ∈ (sampleBank.createSavingsAccount "CUST1001" (-50)).1.allTransactions,
      t.type = .DEPOSIT ∧ t.amount < 0) ∧
    (sampleBank.createSavingsAccount "CUST1001" (-50)).1.balanceOf "SAV10003" =
      some (-50) ∧
    (sampleBank.deposit "SAV10001" (-50)).2 = .error .InvalidAmount := by
  have e : "SAV" ++ toString (sampleBank.nextAccountId + 1) = "SAV10003" := by decide
  have e' : sampleBank.nextTransactionId + 1 = 3 := by decide
  have hS : sampleBank.findAccount "SAV10001" = some sampleSavings := by
    simp [Bank.findAccount, sampleBank, mapFind]
  have hres := (Bank.create_result_of_some sampleBank "CUST1001" sampleCustomer
    sampleBank_findCustomer).1 (-50)
  have hlog := (Bank.create_log_of_some sampleBank "CUST1001" sampleCustomer
    sampleBank_findCustomer).1 (-50)
  obtain ⟨-, -, ⟨A, hA, -, -, -, hbal, -, -⟩, -⟩ :=
    (sampleBank_reachable.idsOK.opened "CUST1001" sampleCustomer sampleBank_findCustomer).1
      (-50)
  rw [e] at hres hlog hA
  simp only [Bank.seedRecord, e'] at hlog
  refine ⟨.createSavingsAccount _ _ sampleBank_reachable, hres, hlog, ?_, ?_, ?_⟩
  · rw [hlog]
    exact ⟨_, List.mem_append_right _ (List.mem_singleton_self _), rfl, by norm_num⟩
  · rw [Bank.balanceOf, hA]
    simp [Account.getBalance, hbal]
  · rw [Bank.deposit_of_nonpos sampleBank "SAV10001" (-50) sampleSavings hS (by norm_num)]

/-- C25. Ledger consistency. In every reachable bank state, every record in the
log of any account occurs in the global log and names that account's identifier
as its source or its destination. And every state-changing operation adds
exactly one record to the global log: `deposit`, `withdraw`, `transfer` and the
three openings each either leave the bank as it was or append one record to the
global log; they append one when they succeed, that is, when `deposit` or an
opening ends normally and when the account's `withdraw` returned `true`. -/
theorem ledger_consistency (s : Bank ℚ) (hr : s.Reachable) :
    (∀ k A, s.findAccount k = some A → ∀ t ∈ A.transactionHistory,
      t ∈ s.allTransactions ∧ (t.fromAccountId = k ∨ t.toAccountId = k)) ∧
    (∀ k amount,
      ((s.deposit k amount).1 = s ∨
        (s.deposit k amount).1.allTransactions =
          s.allTransactions ++ [s.depositRecord k amount]) ∧
      ((s.deposit k amount).2 = .ok () →
        (s.deposit k amount).1.allTransactions =
          s.allTransactions ++ [s.depositRecord k amount])) ∧
    (∀ k amount,
      ((s.withdraw k amount).1 = s ∨
        (s.withdraw k amount).1.allTransactions =
          s.allTransactions ++ [s.withdrawalRecord k amount]) ∧
      (∀ A, s.findAccount k = some A → (A.withdraw amount).2 = .ok true →
        (s.withdraw k amount).1.allTransactions =
          s.allTransactions ++ [s.withdrawalRecord k amount])) ∧
    (∀ src dst amount,
      ((s.transfer src dst amount).1 = s ∨
        (s.transfer src dst amount).1.allTransactions =
          s.allTransactions ++ [s.transferRecord src dst amount]) ∧
      (∀ A B, s.findAccount src = some A → s.findAccount dst = some B →
        (A.withdraw amount).2 = .ok true →
        (s.transfer src dst amount).1.allTransactions =
          s.allTransactions ++ [s.transferRecord src dst amount])) ∧
    (∀ customerId x,
      ((s.createSavingsAccount customerId x).1 = s ∨
        ∃ t, (s.createSavingsAccount customerId x).1.allTransactions =
          s.allTransactions ++ [t]) ∧
      (∀ id, (s.createSavingsAccount customerId x).2 = .ok id →
        (s.createSavingsAccount customerId x).1.allTransactions =
          s.allTransactions ++ [s.seedRecord id x "Initial deposit"])) ∧
    (∀ customerId x,
      ((s.createCheckingAccount customerId x).1 = s ∨
        ∃ t, (s.createCheckingAccount customerId x).1.allTransactions =
          s.allTransactions ++ [t]) ∧
      (∀ id, (s.createCheckingAccount customerId x).2 = .ok id →
        (s.createCheckingAccount customerId x).1.allTransactions =
          s.allTransactions ++ [s.seedRecord id x "Initial deposit"])) ∧
    (∀ customerId P n,
      ((s.createLoanAccount customerId P n).1 = s ∨
        ∃ t, (s.createLoanAccount customerId P n).1.allTransactions =
          s.allTransactions ++ [t]) ∧
      (∀ id, (s.createLoanAccount customerId P n).2 = .ok id →
        (s.createLoanAccount customerId P n).1.allTransactions =
          s.allTransactions ++ [s.seedRecord id P "Loan disbursement"])) := by
  have h := hr.ledgerOK
  refine ⟨?_, ?_, ?_, ?_, ?_, ?_, ?_⟩
  · intro k A hA
    exact (h.2.2.log_of_mapFind (show mapFind s.accounts k = some A from hA)).1
  · intro k amount
    cases hA : s.findAccount k with
    | none =>
      rw [Bank.deposit_of_none s k amount hA]
      exact ⟨Or.inl rfl, fun h' => by cases h'⟩
    | some A =>
      by_cases ha : amount ≤ 0
      · rw [Bank.deposit_of_nonpos s k amount A hA ha]
        exact ⟨Or.inl rfl, fun h' => by cases h'⟩
      · have := (Bank.deposit_of_pos s k amount A hA (not_le.mp ha)).2.2.1
        exact ⟨Or.inr this, fun _ => this⟩
  · intro k amount
    cases hA : s.findAccount k with
    | none =>
      rw [Bank.withdraw_of_none s k amount hA]
      exact ⟨Or.inl rfl, fun A h' => by cases h'⟩
    | some A =>
      by_cases hok : (A.withdraw amount).2 = .ok true
      · have := (Bank.withdraw_of_ok s k amount A hA hok).2.2.1
        exact ⟨Or.inr this, fun _ _ _ => this⟩
      · rw [Bank.withdraw_of_failed s k amount A hA hok]
        refine ⟨Or.inl rfl, fun A' hA' hok' => ?_⟩
        cases hA'
        exact absurd hok' hok
  · intro src dst amount
    cases hA : s.findAccount src with
    | none =>
      rw [Bank.transfer_of_none s src dst amount (Or.inl hA)]
      exact ⟨Or.inl rfl, fun A B h' => by cases h'⟩
    | some A =>
      cases hB : s.findAccount dst with
      | none =>
        rw [Bank.transfer_of_none s src dst amount (Or.inr hB)]
        exact ⟨Or.inl rfl, fun A B _ h' => by cases h'⟩
      | some B =>
        by_cases hok : (A.withdraw amount).2 = .ok true
        · have := (Bank.transfer_log_of_withdraw_ok s src dst amount A B hA hB hok).1
          exact ⟨Or.inr this, fun _ _ _ _ _ => this⟩
        · rw [Bank.transfer_of_withdraw_failed s src dst amount A B hA hB hok]
          refine ⟨Or.inl rfl, fun A' B' hA' _ hok' => ?_⟩
          cases hA'
          exact absurd hok' hok
  · intro customerId x
    cases hc : s.findCustomer customerId with
    | none =>
      rw [(Bank.create_of_none s customerId hc).1 x]
      exact ⟨Or.inl rfl, fun id h' => by cases h'⟩
    | some c =>
      have hlog := (Bank.create_log_of_some s customerId c hc).1 x
      refine ⟨Or.inr ⟨_, hlog⟩, fun id hid => ?_⟩
      rw [(Bank.create_result_of_some s customerId c hc).1 x] at hid
      cases hid
      exact hlog
  · intro customerId x
    cases hc : s.findCustomer customerId with
    | none =>
      rw [(Bank.create_of_none s customerId hc).2.1 x]
      exact ⟨Or.inl rfl, fun id h' => by cases h'⟩
    | some c =>
      have hlog := (Bank.create_log_of_some s customerId c hc).2.1 x
      refine ⟨Or.inr ⟨_, hlog⟩, fun id hid => ?_⟩
      rw [(Bank.create_result_of_some s customerId c hc).2.1 x] at hid
      cases hid
      exact hlog
  · intro customerId P n
    cases hc : s.findCustomer customerId with
    | none =>
      rw [(Bank.create_of_none s customerId hc).2.2 P n]
      exact ⟨Or.inl rfl, fun id h' => by cases h'⟩
    | some c =>
      have hlog := (Bank.create_log_of_some s customerId c hc).2.2 P n
      refine ⟨Or.inr ⟨_, hlog⟩, fun id hid => ?_⟩
      rw [(Bank.create_result_of_some s customerId c hc).2.2 P n] at hid
      cases hid
      exact hlog

/-- C25, at a concrete input: `sampleBank` is reachable; the seed record of its
Savings account is in the global log and names the account; a deposit of 25 adds
one record to the global log and a deposit of 0 leaves the bank as it was. -/
theorem ledger_consistency_witness :
    sampleBank.Reachable ∧
    (∀ t ∈ sampleSavings.transactionHistory,
      t ∈ sampleBank.allTransactions ∧
        (t.fromAccountId = "SAV10001" ∨ t.toAccountId = "SAV10001")) ∧
    (sampleBank.deposit "SAV10001" 25).1.allTransactions.length = 3 ∧
    (sampleBank.deposit "SAV10001" 0).1 = sampleBank := by
  have hS : sampleBank.findAccount "SAV10001" = some sampleSavings := by
    simp [Bank.findAccount, sampleBank, mapFind]
  obtain ⟨h1, h2, -⟩ := ledger_consistency sampleBank sampleBank_reachable
  have hok : (sampleBank.deposit "SAV10001" 25).2 = .ok () :=
    (Bank.deposit_of_pos sampleBank "SAV10001" 25 sampleSavings hS (by norm_num)).1
  refine ⟨sampleBank_reachable, h1 "SAV10001" sampleSavings hS, ?_, ?_⟩
  · rw [(h2 "SAV10001" 25).2 hok]
    simp [sampleBank]
  · rw [Bank.deposit_of_nonpos sampleBank "SAV10001" 0 sampleSavings hS le_rfl]

end Banking
